import Mathlib

/-!
# The mscclpp host proxy: trigger FIFO, service loop and device sleep

A shallow embedding of `src/proxy.cc` (the trigger FIFO operations `poll`, `pop`,
`flushTail`, the dispatcher `processTrigger`, the service function
`mscclppProxyService`) and of `sleep_clocks` from `include/mscclpp/poll_device.hpp`.

Conventions.
* `uint64_t` values are natural numbers; every store of an incremented counter is
  reduced modulo `2 ^ 64`.
* External calls (transport operations, FIFO operations, reads of the volatile `run`
  word) are recorded in a trace of `Event`s carried by the state.
* The other agents of the system (the GPU producer writing slots, the controller
  writing `run`, the CUDA stream carrying out the copies enqueued on it) act between
  two loop iterations through an `EnvAction`.
* Without GDRCopy, `cudaMemcpyAsync` only enqueues the copy of the host tail on the
  stream of the FIFO; the device tail takes the value when the stream carries the
  copy out, at the latest in `cudaStreamSynchronize`.
* The headers that declare the trigger layout, the type masks, the ring depth and
  the flush period are not part of the sources; they are the parameters `ProxyParams`.
-/

namespace Mscclpp

/-! ## The embedding -/


/-- The value `2 ^ 64`, the modulus of `uint64_t` arithmetic. -/
def U64 : Nat := 18446744073709551616

/-- The macro `MSCCLPP_PROXY_RUN_STATE_CHECK_PERIOD` of `proxy.cc`. -/
def MSCCLPP_PROXY_RUN_STATE_CHECK_PERIOD : Int := 100

/-- Modelled from the spec: the result codes of the runtime (their header is not part
of the sources). Only success, in-progress and "any other code" are distinguished,
which is all that `PROXYMSCCLPPCHECK` looks at. -/
inductive mscclppResult_t where
  | mscclppSuccess
  | mscclppInProgress
  | mscclppFailure (code : Nat)
deriving DecidableEq, Repr

/-- Modelled from the spec: the three values of the `run` word. -/
inductive mscclppProxyRunState_t where
  | MSCCLPP_PROXY_RUN_STATE_IDLE
  | MSCCLPP_PROXY_RUN_STATE_RUNNING
  | MSCCLPP_PROXY_RUN_STATE_EXITING
deriving DecidableEq, Repr

/-- A trigger is the union of `uint64_t value[2]` with a bit-field view;
`value0` is `value[0]`, the low 64 bits. -/
structure mscclppTrigger where
  value0 : Nat
  value1 : Nat
deriving DecidableEq, Repr

/-- The parameters that `proxy.cc` takes from headers that are not in the sources:
ring depth, flush period, the three type masks, the bit-field decoders of a trigger
and the compile-time switch `MSCCLPP_USE_GDRCOPY`. -/
structure ProxyParams where
  MSCCLPP_PROXY_FIFO_SIZE : Nat
  MSCCLPP_PROXY_FIFO_FLUSH_COUNTER : Nat
  mscclppData : Nat
  mscclppFlag : Nat
  mscclppSync : Nat
  type : mscclppTrigger → Nat
  connId : mscclppTrigger → Nat
  srcDataOffset : mscclppTrigger → Nat
  dstDataOffset : mscclppTrigger → Nat
  dataSize : mscclppTrigger → Nat
  MSCCLPP_USE_GDRCOPY : Bool

/-- A call on a connection's host transport (`conn->hostConn`). -/
inductive HostCall where
  | put (dstDataOffset srcDataOffset dataSize : Nat)
  | signal
  | flush
deriving DecidableEq, Repr

/-- The outcomes of the external calls, as the environment decides them:
`numaBind`, the CUDA calls of `flushTail` and of the shutdown path (`true` is
`cudaSuccess`), and the result code a transport operation would report. -/
structure ProxyEnv where
  numaBind : mscclppResult_t
  cudaMemcpyAsync : Nat → Bool
  cudaStreamSynchronize : Bool
  p2pStreamSynchronize : Bool
  hostConn : Nat → HostCall → mscclppResult_t

/-- What the service thread does that is visible outside it. -/
inductive Event where
  | readRun (v : mscclppProxyRunState_t)
  | poll (slot : Nat)
  | processTrigger (conn : Nat) (trigger : mscclppTrigger)
  | transport (conn : Nat) (call : HostCall)
  | pop
  | flushTail (sync : Bool)
  | p2pStreamSynchronize
  | storeRun (v : mscclppProxyRunState_t)
deriving DecidableEq, Repr

/-- The host view of `struct mscclppProxyFifo`: the ring, the host tail, the tail
that the device sees, and `stream`: the copies to the device tail that
`cudaMemcpyAsync` has enqueued and that are not carried out yet, oldest first (each
with the value of the host tail at its call). -/
structure mscclppProxyFifo where
  triggerFifo : List mscclppTrigger
  fifoTailHost : Nat
  fifoTailDev : Nat
  stream : List Nat
deriving DecidableEq, Repr

/-- The stream carries out its `n` oldest copies: the device tail takes the value of
the last of them. -/
def streamRun (n : Nat) (f : mscclppProxyFifo) : mscclppProxyFifo :=
  { f with
    fifoTailDev := (f.stream.take n).getLast?.getD f.fifoTailDev
    stream := f.stream.drop n }

/-- The all-zero trigger, read where a list index has no element. -/
def zeroTrigger : mscclppTrigger := ⟨0, 0⟩

/-- The test of `PROXYMSCCLPPCHECK`: the enclosing function returns `NULL` when the
result is neither success nor in-progress. -/
def proxyCheckFails (res : mscclppResult_t) : Bool :=
  res != mscclppResult_t.mscclppSuccess && res != mscclppResult_t.mscclppInProgress

/-- `mscclppProxyFifo::poll`: copies the 16 bytes of the slot at
`fifoTailHost % MSCCLPP_PROXY_FIFO_SIZE`; the FIFO is handed back as it was. -/
def mscclppProxyFifo.poll (P : ProxyParams) (f : mscclppProxyFifo) :
    mscclppResult_t × mscclppTrigger × mscclppProxyFifo :=
  (mscclppResult_t.mscclppSuccess,
   f.triggerFifo.getD (f.fifoTailHost % P.MSCCLPP_PROXY_FIFO_SIZE) zeroTrigger,
   f)

/-- `mscclppProxyFifo::pop`: a 64-bit store of zero at the start of the slot, then
`fifoTailHost++`. -/
def mscclppProxyFifo.pop (P : ProxyParams) (f : mscclppProxyFifo) :
    mscclppResult_t × mscclppProxyFifo :=
  let slot := f.fifoTailHost % P.MSCCLPP_PROXY_FIFO_SIZE
  let old := f.triggerFifo.getD slot zeroTrigger
  (mscclppResult_t.mscclppSuccess,
   { f with
     triggerFifo := f.triggerFifo.set slot { old with value0 := 0 }
     fifoTailHost := (f.fifoTailHost + 1) % U64 })

/-- `mscclppProxyFifo::flushTail`: with GDRCopy a direct store of the host tail to the
device tail; else `cudaMemcpyAsync` enqueues the copy on the stream and, only when
`sync`, `cudaStreamSynchronize` waits until the stream has carried out all its
copies. A failed CUDA call makes `CUDACHECK` return an error code. -/
def mscclppProxyFifo.flushTail (P : ProxyParams) (env : ProxyEnv) (f : mscclppProxyFifo)
    (sync : Bool) : mscclppResult_t × mscclppProxyFifo :=
  if P.MSCCLPP_USE_GDRCOPY then
    (mscclppResult_t.mscclppSuccess, { f with fifoTailDev := f.fifoTailHost })
  else if env.cudaMemcpyAsync f.fifoTailHost = false then
    (mscclppResult_t.mscclppFailure 1, f)
  else
    let f1 := { f with stream := f.stream ++ [f.fifoTailHost] }
    if sync then
      if env.cudaStreamSynchronize = false then
        (mscclppResult_t.mscclppFailure 1, f1)
      else
        (mscclppResult_t.mscclppSuccess, streamRun f1.stream.length f1)
    else
      (mscclppResult_t.mscclppSuccess, f1)

/-- `processTrigger`: three tests on the type bits, in this order; each call is
appended to the trace and its result code is dropped (the function is `void`). -/
def processTrigger (P : ProxyParams) (env : ProxyEnv) (trigger : mscclppTrigger)
    (conn : Nat) (trace : List Event) : List Event :=
  let trace :=
    if P.type trigger &&& P.mscclppData ≠ 0 then
      let call := HostCall.put (P.dstDataOffset trigger) (P.srcDataOffset trigger)
        (P.dataSize trigger)
      let _res := env.hostConn conn call
      trace ++ [Event.transport conn call]
    else trace
  let trace :=
    if P.type trigger &&& P.mscclppFlag ≠ 0 then
      let _res := env.hostConn conn HostCall.signal
      trace ++ [Event.transport conn HostCall.signal]
    else trace
  let trace :=
    if P.type trigger &&& P.mscclppSync ≠ 0 then
      let _res := env.hostConn conn HostCall.flush
      trace ++ [Event.transport conn HostCall.flush]
    else trace
  trace

/-- The proxy state together with the locals of `mscclppProxyService` and the trace.
`ibContext` tells whether `proxyState->ibContext` is non-null. -/
structure ServiceState where
  fifo : mscclppProxyFifo
  run : mscclppProxyRunState_t
  ibContext : Bool
  runCnt : Int
  flushCnt : Nat
  trace : List Event
deriving DecidableEq, Repr

/-- How one pass through the body of `for (;;)` ends. -/
inductive Outcome where
  | next (s : ServiceState)
  | brk (s : ServiceState)
  | ret (s : ServiceState)
deriving DecidableEq, Repr

/-- The state an outcome carries. -/
def Outcome.state : Outcome → ServiceState
  | Outcome.next s => s
  | Outcome.brk s => s
  | Outcome.ret s => s

/-- Lines 145-161: poll, the empty-slot test, dispatch, pop and the flush cadence. -/
def serviceBody (P : ProxyParams) (env : ProxyEnv) (s : ServiceState) : Outcome :=
  let polled := s.fifo.poll P
  let trigger := polled.2.1
  let s1 := { s with
    fifo := polled.2.2
    trace := s.trace ++ [Event.poll (s.fifo.fifoTailHost % P.MSCCLPP_PROXY_FIFO_SIZE)] }
  if proxyCheckFails polled.1 then Outcome.ret s1
  else if trigger.value0 = 0 then Outcome.next s1
  else
    let conn := P.connId trigger
    let s2 := { s1 with
      trace := processTrigger P env trigger conn
        (s1.trace ++ [Event.processTrigger conn trigger]) }
    let popped := s2.fifo.pop P
    let s3 := { s2 with fifo := popped.2, trace := s2.trace ++ [Event.pop] }
    if proxyCheckFails popped.1 then Outcome.ret s3
    else
      let s4 := { s3 with flushCnt := (s3.flushCnt + 1) % U64 }
      if s4.flushCnt % P.MSCCLPP_PROXY_FIFO_FLUSH_COUNTER = 0
          ∨ P.type trigger &&& P.mscclppSync ≠ 0 then
        let flushed := s4.fifo.flushTail P env false
        let s5 := { s4 with fifo := flushed.2, trace := s4.trace ++ [Event.flushTail false] }
        if proxyCheckFails flushed.1 then Outcome.ret s5 else Outcome.next s5
      else Outcome.next s4

/-- One pass through the body of the `for (;;)` of `mscclppProxyService`
(lines 139-161): the post-decrement test of `runCnt`, then `serviceBody`. -/
def serviceIter (P : ProxyParams) (env : ProxyEnv) (s : ServiceState) : Outcome :=
  let c := s.runCnt
  let s1 := { s with runCnt := c - 1 }
  if c = 0 then
    let s2 := { s1 with
      runCnt := MSCCLPP_PROXY_RUN_STATE_CHECK_PERIOD
      trace := s1.trace ++ [Event.readRun s1.run] }
    if s2.run ≠ mscclppProxyRunState_t.MSCCLPP_PROXY_RUN_STATE_RUNNING then Outcome.brk s2
    else serviceBody P env s2
  else serviceBody P env s1

/-- What the other agents do between two iterations: the GPU producer stores
triggers into slots, a controller may store into `run`, the CUDA stream carries out
`streamSteps` of the copies enqueued on it. -/
structure EnvAction where
  writes : List (Nat × mscclppTrigger)
  setRun : Option mscclppProxyRunState_t
  streamSteps : Nat
deriving DecidableEq, Repr

/-- The environment does nothing. -/
def EnvAction.idle : EnvAction := ⟨[], none, 0⟩

/-- The effect of an environment action on the shared memory. -/
def applyEnv (a : EnvAction) (s : ServiceState) : ServiceState :=
  { s with
    fifo := streamRun a.streamSteps { s.fifo with
      triggerFifo := a.writes.foldl (fun l w => l.set w.1 w.2) s.fifo.triggerFifo }
    run := a.setRun.getD s.run }

/-- The `for (;;)` loop, one iteration per scheduled environment action. When the
schedule is used up the loop is still spinning (`Outcome.next`). -/
def serviceLoop (P : ProxyParams) (env : ProxyEnv) : List EnvAction → ServiceState → Outcome
  | [], s => Outcome.next s
  | a :: rest, s =>
    match serviceIter P env (applyEnv a s) with
    | Outcome.next s1 => serviceLoop P env rest s1
    | o => o

/-- How a call of `mscclppProxyService` stands when the schedule is used up. -/
inductive ServiceResult where
  | running (s : ServiceState)
  | returnedEarly (s : ServiceState)
  | finished (s : ServiceState)
deriving DecidableEq, Repr

/-- The state a service result carries. -/
def ServiceResult.state : ServiceResult → ServiceState
  | ServiceResult.running s => s
  | ServiceResult.returnedEarly s => s
  | ServiceResult.finished s => s

/-- Lines 164-172: the final synchronous flush, the stream synchronisation of a P2P
proxy, and the store of `Idle` into `run`. -/
def serviceExit (P : ProxyParams) (env : ProxyEnv) (s : ServiceState) : ServiceResult :=
  let flushed := s.fifo.flushTail P env true
  let s1 := { s with fifo := flushed.2, trace := s.trace ++ [Event.flushTail true] }
  if proxyCheckFails flushed.1 then ServiceResult.returnedEarly s1
  else
    let isP2pProxy := !s1.ibContext
    if isP2pProxy then
      let s2 := { s1 with trace := s1.trace ++ [Event.p2pStreamSynchronize] }
      if env.p2pStreamSynchronize = false then ServiceResult.returnedEarly s2
      else
        ServiceResult.finished { s2 with
          run := mscclppProxyRunState_t.MSCCLPP_PROXY_RUN_STATE_IDLE
          trace := s2.trace ++
            [Event.storeRun mscclppProxyRunState_t.MSCCLPP_PROXY_RUN_STATE_IDLE] }
    else
      ServiceResult.finished { s1 with
        run := mscclppProxyRunState_t.MSCCLPP_PROXY_RUN_STATE_IDLE
        trace := s1.trace ++
          [Event.storeRun mscclppProxyRunState_t.MSCCLPP_PROXY_RUN_STATE_IDLE] }

/-- The loop followed by the shutdown sequence, from any loop state. -/
def serviceFrom (P : ProxyParams) (env : ProxyEnv) (sched : List EnvAction)
    (s : ServiceState) : ServiceResult :=
  match serviceLoop P env sched s with
  | Outcome.next s1 => ServiceResult.running s1
  | Outcome.brk s1 => serviceExit P env s1
  | Outcome.ret s1 => ServiceResult.returnedEarly s1

/-- The loop state on entry of the loop (lines 136-137): `runCnt` is the check
period, `flushCnt` is zero, nothing has been traced. -/
def freshState (fifo : mscclppProxyFifo) (run : mscclppProxyRunState_t)
    (ibContext : Bool) : ServiceState :=
  { fifo := fifo, run := run, ibContext := ibContext
    runCnt := MSCCLPP_PROXY_RUN_STATE_CHECK_PERIOD, flushCnt := 0, trace := [] }

/-- The function `mscclppProxyService`: the NUMA binding, the loop, the shutdown. -/
def mscclppProxyService (P : ProxyParams) (env : ProxyEnv) (sched : List EnvAction)
    (fifo : mscclppProxyFifo) (run : mscclppProxyRunState_t) (ibContext : Bool) :
    ServiceResult :=
  if proxyCheckFails env.numaBind then
    ServiceResult.returnedEarly (freshState fifo run ibContext)
  else serviceFrom P env sched (freshState fifo run ibContext)

/-- The expression that `sleep_clocks` assigns to `elapsed`, in `uint64_t`
arithmetic, for the readings `start` and `now` of `clock64 ()`. -/
def elapsed (start now : Nat) : Nat :=
  if now > start then (now - start) % U64
  else (now + (0xffffffffffffffff - start)) % U64

/-- The `for (;;)` of `sleep_clocks` over the successive readings of `clock64 ()`:
it returns at the first reading whose `elapsed` reaches `clocks` (the result is that
reading), and is still spinning (`none`) when the readings are used up. -/
def sleepLoop (clocks start : Nat) : List Nat → Option Nat
  | [] => none
  | now :: rest => if elapsed start now ≥ clocks then some now else sleepLoop clocks start rest

/-- `sleep_clocks`: only the lanes with `threadIdx.x % 64 == 0` read the clock and
spin; the others return at once (`some none`). The first reading is `start`. -/
def sleep_clocks (clocks threadIdx_x : Nat) (clock : List Nat) : Option (Option Nat) :=
  if threadIdx_x % 64 = 0 then
    match clock with
    | [] => none
    | start :: rest => (sleepLoop clocks start rest).map some
  else some none

/-- Modelled from the spec: a sample trigger layout and constants (their header is not
part of the sources), used to instantiate the theorems: the low word is the type
mask, the high word packs `connId` (10 bits) and the two offsets and the size
(18 bits each); `Data`, `Flag`, `Sync` are the bits 1, 2, 4. -/
def sampleParams (size flushCounter : Nat) (gdr : Bool) : ProxyParams :=
  { MSCCLPP_PROXY_FIFO_SIZE := size
    MSCCLPP_PROXY_FIFO_FLUSH_COUNTER := flushCounter
    mscclppData := 1
    mscclppFlag := 2
    mscclppSync := 4
    type := fun t => t.value0
    connId := fun t => t.value1 % 1024
    srcDataOffset := fun t => t.value1 / 1024 % 262144
    dstDataOffset := fun t => t.value1 / 268435456 % 262144
    dataSize := fun t => t.value1 / 70368744177664 % 262144
    MSCCLPP_USE_GDRCOPY := gdr }

/-- The trigger that `sampleParams` decodes to the given fields. -/
def sampleTrigger (type connId src dst size : Nat) : mscclppTrigger :=
  ⟨type, connId + 1024 * src + 268435456 * dst + 70368744177664 * size⟩

/-- An environment in which every external call succeeds. -/
def okEnv : ProxyEnv :=
  { numaBind := mscclppResult_t.mscclppSuccess
    cudaMemcpyAsync := fun _ => true
    cudaStreamSynchronize := true
    p2pStreamSynchronize := true
    hostConn := fun _ _ => mscclppResult_t.mscclppSuccess }

/-- An environment in which the CUDA calls succeed and every transport operation
reports a failure. -/
def failingTransportEnv : ProxyEnv :=
  { okEnv with hostConn := fun _ _ => mscclppResult_t.mscclppFailure 2 }

/-- A ring of `size` empty slots with both tails at zero, as `create` leaves it. -/
def emptyFifo (size : Nat) : mscclppProxyFifo :=
  { triggerFifo := List.replicate size zeroTrigger, fifoTailHost := 0, fifoTailDev := 0
    stream := [] }

/-- The processed triggers of a trace with their connections, in order. -/
def dispatched (trace : List Event) : List (Nat × mscclppTrigger) :=
  trace.filterMap fun e =>
    match e with
    | Event.processTrigger conn trigger => some (conn, trigger)
    | _ => none

/-- The transport calls of a trace with their connections, in order. -/
def transportCalls (trace : List Event) : List (Nat × HostCall) :=
  trace.filterMap fun e =>
    match e with
    | Event.transport conn call => some (conn, call)
    | _ => none

/-- The number of in-loop `flushTail()` calls at the head of a trace, before the
next processed trigger. -/
def leadingFlushes : List Event → Nat
  | [] => 0
  | Event.processTrigger _ _ :: _ => 0
  | Event.flushTail false :: es => leadingFlushes es + 1
  | _ :: es => leadingFlushes es

/-- For each processed trigger of a trace, in order, the number of in-loop
`flushTail()` calls made after it and before the next processed trigger. -/
def flushPerDispatch : List Event → List Nat
  | [] => []
  | Event.processTrigger _ _ :: es => leadingFlushes es :: flushPerDispatch es
  | _ :: es => flushPerDispatch es

/-- The transport events that the spec prescribes for a trigger: `put` when the Data
bit is set, then `signal` when the Flag bit is set, then `flush` when the Sync bit
is set. -/
def specCalls (P : ProxyParams) (t : mscclppTrigger) (conn : Nat) : List Event :=
  (if P.type t &&& P.mscclppData ≠ 0 then
    [Event.transport conn (HostCall.put (P.dstDataOffset t) (P.srcDataOffset t) (P.dataSize t))]
   else []) ++
  (if P.type t &&& P.mscclppFlag ≠ 0 then [Event.transport conn HostCall.signal] else []) ++
  (if P.type t &&& P.mscclppSync ≠ 0 then [Event.transport conn HostCall.flush] else [])

/-- The trigger that the next `poll` of a state returns. -/
def polledTrigger (P : ProxyParams) (s : ServiceState) : mscclppTrigger :=
  s.fifo.triggerFifo.getD (s.fifo.fifoTailHost % P.MSCCLPP_PROXY_FIFO_SIZE) zeroTrigger

/-- The slot that the next `poll` of a state reads. -/
def polledSlot (P : ProxyParams) (s : ServiceState) : Nat :=
  s.fifo.fifoTailHost % P.MSCCLPP_PROXY_FIFO_SIZE

/-- The flush test of line 159 for the dispatch that brings `flushCnt` to `n`. -/
def flushDue (P : ProxyParams) (n : Nat) (t : mscclppTrigger) : Prop :=
  n % P.MSCCLPP_PROXY_FIFO_FLUSH_COUNTER = 0 ∨ P.type t &&& P.mscclppSync ≠ 0

instance (P : ProxyParams) (n : Nat) (t : mscclppTrigger) : Decidable (flushDue P n t) := by
  unfold flushDue; infer_instance

/-- The state after the dispatch part of an iteration (dispatch, pop, count). -/
def afterPop (P : ProxyParams) (s : ServiceState) : ServiceState :=
  { s with
    fifo := (s.fifo.pop P).2
    flushCnt := (s.flushCnt + 1) % U64
    trace := s.trace ++ [Event.poll (polledSlot P s),
      Event.processTrigger (P.connId (polledTrigger P s)) (polledTrigger P s)]
      ++ specCalls P (polledTrigger P s) (P.connId (polledTrigger P s)) ++ [Event.pop] }

/-- The state after the in-loop `flushTail()` that follows a dispatch. -/
def afterFlush (P : ProxyParams) (env : ProxyEnv) (s : ServiceState) : ServiceState :=
  { afterPop P s with
    fifo := ((afterPop P s).fifo.flushTail P env false).2
    trace := (afterPop P s).trace ++ [Event.flushTail false] }

/-- The state with which an iteration enters the poll, after the `runCnt` test. -/
def afterCheck (s : ServiceState) : ServiceState :=
  if s.runCnt = 0 then
    { s with
      runCnt := MSCCLPP_PROXY_RUN_STATE_CHECK_PERIOD
      trace := s.trace ++ [Event.readRun s.run] }
  else { s with runCnt := s.runCnt - 1 }

/-- Events that are neither a processed trigger nor an in-loop `flushTail()`. -/
def Event.quiet : Event → Bool
  | Event.processTrigger _ _ => false
  | Event.flushTail false => false
  | _ => true

/-- The in-loop flush counts that the cadence of line 159 gives to the dispatches
numbered `i + 1`, `i + 2`, ... of a list of processed triggers. -/
def flushExpected (P : ProxyParams) : Nat → List (Nat × mscclppTrigger) → List Nat
  | _, [] => []
  | i, d :: ds => (if flushDue P ((i + 1) % U64) d.2 then 1 else 0) :: flushExpected P (i + 1) ds

/-- The cadence invariant of the loop: `flushCnt` counts the processed triggers, and
each of them was followed by an in-loop `flushTail()` exactly when line 159 says so. -/
def CadenceInv (P : ProxyParams) (s : ServiceState) : Prop :=
  s.flushCnt = (dispatched s.trace).length % U64 ∧
  flushPerDispatch s.trace = flushExpected P 0 (dispatched s.trace)

/-- The slot that the host tail `h` reaches after `i` more pops. -/
def slotOf (P : ProxyParams) (h i : Nat) : Nat := (h + i) % U64 % P.MSCCLPP_PROXY_FIFO_SIZE

/-- The in-loop `flushTail()` cannot fail: a direct store with GDRCopy, or an
asynchronous copy that the CUDA runtime accepts. -/
def FlushOk (P : ProxyParams) (env : ProxyEnv) : Prop :=
  P.MSCCLPP_USE_GDRCOPY = true ∨ ∀ v, env.cudaMemcpyAsync v = true

/-- The CUDA calls of the shutdown path succeed. -/
def ExitOk (P : ProxyParams) (env : ProxyEnv) (ibContext : Bool) : Prop :=
  (P.MSCCLPP_USE_GDRCOPY = true ∨ env.cudaStreamSynchronize = true) ∧
  (ibContext = false → env.p2pStreamSynchronize = true)

/-- What a `flushTail()` without `sync` that did not fail does to a FIFO `f`: with
GDRCopy the device tail is the host tail, else the device tail is as before and the
host tail is the newest copy enqueued on the stream. -/
def Published (P : ProxyParams) (f g : mscclppProxyFifo) : Prop :=
  g.triggerFifo = f.triggerFifo ∧ g.fifoTailHost = f.fifoTailHost ∧
  (P.MSCCLPP_USE_GDRCOPY = true → g.fifoTailDev = f.fifoTailHost ∧ g.stream = f.stream) ∧
  (P.MSCCLPP_USE_GDRCOPY = false →
    g.fifoTailDev = f.fifoTailDev ∧ g.stream = f.stream ++ [f.fifoTailHost])

/-- The FIFO after a `flushTail(sync=true)` that did not fail. -/
def syncFlushed (P : ProxyParams) (f : mscclppProxyFifo) : mscclppProxyFifo :=
  if P.MSCCLPP_USE_GDRCOPY then { f with fifoTailDev := f.fifoTailHost }
  else { f with fifoTailDev := f.fifoTailHost, stream := [] }

/-- What one dispatching iteration that goes on to the next one does to the state. -/
def DispatchStep (P : ProxyParams) (s s1 : ServiceState) : Prop :=
  s1.fifo.triggerFifo
    = s.fifo.triggerFifo.set (polledSlot P s) { polledTrigger P s with value0 := 0 } ∧
  s1.fifo.fifoTailHost = (s.fifo.fifoTailHost + 1) % U64 ∧
  (s1.fifo.fifoTailDev = s.fifo.fifoTailDev ∨ s1.fifo.fifoTailDev = s1.fifo.fifoTailHost) ∧
  s1.run = s.run ∧ s1.ibContext = s.ibContext ∧
  s1.runCnt = (if s.runCnt = 0 then MSCCLPP_PROXY_RUN_STATE_CHECK_PERIOD else s.runCnt - 1) ∧
  s1.flushCnt = (s.flushCnt + 1) % U64 ∧
  dispatched s1.trace
    = dispatched s.trace ++ [(P.connId (polledTrigger P s), polledTrigger P s)] ∧
  transportCalls s1.trace
    = transportCalls s.trace
      ++ transportCalls (specCalls P (polledTrigger P s) (P.connId (polledTrigger P s)))

/-- The ring of a state holds the triggers `trigs` in the slots that the host tail
visits next, in this order. -/
def Pending (P : ProxyParams) (s : ServiceState) (trigs : List mscclppTrigger) : Prop :=
  ∀ i, i < trigs.length →
    s.fifo.triggerFifo.getD (slotOf P s.fifo.fifoTailHost i) zeroTrigger
      = trigs.getD i zeroTrigger

/-- The transport calls that a list of triggers asks for, trigger after trigger. -/
def callsFor (P : ProxyParams) (trigs : List mscclppTrigger) : List (Nat × HostCall) :=
  trigs.flatMap fun t => transportCalls (specCalls P t (P.connId t))

/-- What `trigs.length` dispatching iterations do to a state that holds `trigs`. -/
def Drained (P : ProxyParams) (trigs : List mscclppTrigger) (s s1 : ServiceState) : Prop :=
  dispatched s1.trace = dispatched s.trace ++ trigs.map (fun t => (P.connId t, t)) ∧
  transportCalls s1.trace = transportCalls s.trace ++ callsFor P trigs ∧
  s1.fifo.fifoTailHost = (s.fifo.fifoTailHost + trigs.length) % U64 ∧
  s1.run = s.run ∧ s1.ibContext = s.ibContext ∧
  ((trigs.length : Int) ≤ s.runCnt → s1.runCnt = s.runCnt - trigs.length) ∧
  s1.fifo.triggerFifo.length = s.fifo.triggerFifo.length ∧
  (∀ j, (∀ i, i < trigs.length → j ≠ slotOf P s.fifo.fifoTailHost i) →
    s1.fifo.triggerFifo.getD j zeroTrigger = s.fifo.triggerFifo.getD j zeroTrigger) ∧
  (∀ i, i < trigs.length →
    (s1.fifo.triggerFifo.getD (slotOf P s.fifo.fifoTailHost i) zeroTrigger).value0 = 0)

/-- The state after `n` polls of an empty slot without a read of `run`. -/
def spun (P : ProxyParams) (s : ServiceState) (n : Nat) : ServiceState :=
  { s with
    runCnt := s.runCnt - n
    trace := s.trace ++ List.replicate n (Event.poll (polledSlot P s)) }

/-- An iteration treats the polled slot as empty: it goes on to the next iteration or
breaks on the `run` check, the FIFO (ring, host tail, device tail), `flushCnt` and
`run` are as before, and it has only read `run` and polled. -/
def TreatedAsEmpty (P : ProxyParams) (env : ProxyEnv) (s : ServiceState) : Prop :=
  ∃ s1, (serviceIter P env s = Outcome.next s1 ∨ serviceIter P env s = Outcome.brk s1) ∧
    s1.fifo = s.fifo ∧ s1.flushCnt = s.flushCnt ∧ s1.run = s.run ∧
    ∃ new, s1.trace = s.trace ++ new ∧
      ∀ e ∈ new, e = Event.readRun s.run ∨ e = Event.poll (polledSlot P s)

/-- Modelled from the spec: the stores of the GPU producer that submits `trigs` from the
head `h` on (section 6: the slot of a submission is `head % N`, and `head` is then
incremented); the device code is not part of the sources. -/
def producerWrites (size h : Nat) (trigs : List mscclppTrigger) : List (Nat × mscclppTrigger) :=
  trigs.enum.map fun it => ((h + it.1) % U64 % size, it.2)

/-- The trace of the loop started afresh, after a schedule. -/
def loopTrace (P : ProxyParams) (env : ProxyEnv) (sched : List EnvAction)
    (fifo : mscclppProxyFifo) (run : mscclppProxyRunState_t) (ibContext : Bool) : List Event :=
  (serviceLoop P env sched (freshState fifo run ibContext)).state.trace

/-- The trace of a fresh loop with the flush period 4 that processes five triggers of
which the 1st, the 3rd and the 5th have the Sync bit (type `Data|Sync`, the two others
type `Data`). -/
def syncRun : List Event :=
  loopTrace (sampleParams 8 4 true) okEnv
    (EnvAction.mk (producerWrites 8 0
        [sampleTrigger 5 0 0 0 8, sampleTrigger 1 0 0 0 8, sampleTrigger 5 0 0 0 8,
         sampleTrigger 1 0 0 0 8, sampleTrigger 5 0 0 0 8]) none 0
      :: List.replicate 4 EnvAction.idle)
    (emptyFifo 8) mscclppProxyRunState_t.MSCCLPP_PROXY_RUN_STATE_RUNNING false

/-- An event that is not a store into `run`. -/
def Event.noStore : Event → Prop
  | Event.storeRun _ => False
  | _ => True

/-! ## Basic facts -/

theorem processTrigger_eq (P : ProxyParams) (env : ProxyEnv) (t : mscclppTrigger)
    (conn : Nat) (tr : List Event) :
    processTrigger P env t conn tr = tr ++ specCalls P t conn := by
  unfold processTrigger specCalls
  split_ifs <;> simp

theorem dispatched_specCalls (P : ProxyParams) (t : mscclppTrigger) (conn : Nat) :
    dispatched (specCalls P t conn) = [] := by
  unfold dispatched specCalls
  split_ifs <;> simp

theorem transportCalls_specCalls (P : ProxyParams) (t : mscclppTrigger) (conn : Nat) :
    (transportCalls (specCalls P t conn)).map (fun c => Event.transport c.1 c.2)
      = specCalls P t conn := by
  unfold transportCalls specCalls
  split_ifs <;> simp

theorem dispatched_append (a b : List Event) :
    dispatched (a ++ b) = dispatched a ++ dispatched b := by
  simp [dispatched]

theorem transportCalls_append (a b : List Event) :
    transportCalls (a ++ b) = transportCalls a ++ transportCalls b := by
  simp [transportCalls]

theorem poll_result (P : ProxyParams) (s : ServiceState) :
    (s.fifo.poll P).1 = mscclppResult_t.mscclppSuccess := rfl

theorem poll_trigger (P : ProxyParams) (s : ServiceState) :
    (s.fifo.poll P).2.1 = polledTrigger P s := rfl

theorem poll_fifo (P : ProxyParams) (s : ServiceState) : (s.fifo.poll P).2.2 = s.fifo := rfl

theorem pop_result (P : ProxyParams) (f : mscclppProxyFifo) :
    (f.pop P).1 = mscclppResult_t.mscclppSuccess := rfl

theorem polledSlot_eq (P : ProxyParams) (s : ServiceState) :
    s.fifo.fifoTailHost % P.MSCCLPP_PROXY_FIFO_SIZE = polledSlot P s := rfl

theorem proxyCheckFails_success : proxyCheckFails mscclppResult_t.mscclppSuccess = false := rfl

/-- The body of an iteration on an empty slot. -/
theorem serviceBody_empty (P : ProxyParams) (env : ProxyEnv) (s : ServiceState)
    (h : (polledTrigger P s).value0 = 0) :
    serviceBody P env s
      = Outcome.next { s with trace := s.trace ++ [Event.poll (polledSlot P s)] } := by
  simp only [serviceBody, poll_result, poll_trigger, poll_fifo, proxyCheckFails_success,
    polledSlot_eq, h]
  simp

/-- The body of an iteration on a slot that holds a trigger. -/
theorem serviceBody_dispatch (P : ProxyParams) (env : ProxyEnv) (s : ServiceState)
    (h : (polledTrigger P s).value0 ≠ 0) :
    serviceBody P env s =
      if flushDue P ((s.flushCnt + 1) % U64) (polledTrigger P s) then
        if proxyCheckFails ((afterPop P s).fifo.flushTail P env false).1 then
          Outcome.ret (afterFlush P env s)
        else Outcome.next (afterFlush P env s)
      else Outcome.next (afterPop P s) := by
  simp only [serviceBody, poll_result, poll_trigger, poll_fifo, proxyCheckFails_success,
    polledSlot_eq, pop_result, processTrigger_eq, afterPop, afterFlush, flushDue, h]
  simp

theorem serviceIter_eq (P : ProxyParams) (env : ProxyEnv) (s : ServiceState) :
    serviceIter P env s =
      if s.runCnt = 0 ∧ s.run ≠ mscclppProxyRunState_t.MSCCLPP_PROXY_RUN_STATE_RUNNING then
        Outcome.brk (afterCheck s)
      else serviceBody P env (afterCheck s) := by
  unfold serviceIter afterCheck
  by_cases h : s.runCnt = 0 <;> by_cases h2 : s.run = mscclppProxyRunState_t.MSCCLPP_PROXY_RUN_STATE_RUNNING
    <;> simp [h, h2]

theorem afterCheck_fifo (s : ServiceState) : (afterCheck s).fifo = s.fifo := by
  unfold afterCheck; split <;> rfl

theorem afterCheck_run (s : ServiceState) : (afterCheck s).run = s.run := by
  unfold afterCheck; split <;> rfl

theorem afterCheck_ibContext (s : ServiceState) : (afterCheck s).ibContext = s.ibContext := by
  unfold afterCheck; split <;> rfl

theorem afterCheck_flushCnt (s : ServiceState) : (afterCheck s).flushCnt = s.flushCnt := by
  unfold afterCheck; split <;> rfl

theorem afterCheck_trace (s : ServiceState) :
    (afterCheck s).trace = s.trace ++ (if s.runCnt = 0 then [Event.readRun s.run] else []) := by
  unfold afterCheck; split <;> simp

theorem afterCheck_runCnt (s : ServiceState) :
    (afterCheck s).runCnt
      = if s.runCnt = 0 then MSCCLPP_PROXY_RUN_STATE_CHECK_PERIOD else s.runCnt - 1 := by
  unfold afterCheck; split <;> rfl

theorem polledTrigger_afterCheck (P : ProxyParams) (s : ServiceState) :
    polledTrigger P (afterCheck s) = polledTrigger P s := by
  unfold polledTrigger; rw [afterCheck_fifo]

theorem polledSlot_afterCheck (P : ProxyParams) (s : ServiceState) :
    polledSlot P (afterCheck s) = polledSlot P s := by
  unfold polledSlot; rw [afterCheck_fifo]

theorem leadingFlushes_quiet (q : List Event) (hq : ∀ e ∈ q, e.quiet = true) :
    leadingFlushes q = 0 := by
  induction q with
  | nil => rfl
  | cons e q ih =>
    have he := hq e (List.mem_cons_self _ _)
    have ih1 := ih (fun x hx => hq x (List.mem_cons_of_mem _ hx))
    cases e with
    | flushTail b => cases b <;> simp_all [leadingFlushes, Event.quiet]
    | _ => simp_all [leadingFlushes, Event.quiet]

theorem flushPerDispatch_quiet (q : List Event) (hq : ∀ e ∈ q, e.quiet = true) :
    flushPerDispatch q = [] := by
  induction q with
  | nil => rfl
  | cons e q ih =>
    have he := hq e (List.mem_cons_self _ _)
    have ih1 := ih (fun x hx => hq x (List.mem_cons_of_mem _ hx))
    cases e with
    | flushTail b => cases b <;> simp_all [flushPerDispatch, Event.quiet]
    | _ => simp_all [flushPerDispatch, Event.quiet]

theorem leadingFlushes_append_quiet (tr q : List Event) (hq : ∀ e ∈ q, e.quiet = true) :
    leadingFlushes (tr ++ q) = leadingFlushes tr := by
  induction tr with
  | nil => simpa [leadingFlushes] using leadingFlushes_quiet q hq
  | cons e tr ih =>
    cases e with
    | flushTail b => cases b <;> simp [leadingFlushes, ih]
    | _ => simp [leadingFlushes, ih]

theorem flushPerDispatch_append_quiet (tr q : List Event) (hq : ∀ e ∈ q, e.quiet = true) :
    flushPerDispatch (tr ++ q) = flushPerDispatch tr := by
  induction tr with
  | nil => simpa [flushPerDispatch] using flushPerDispatch_quiet q hq
  | cons e tr ih =>
    cases e with
    | flushTail b => cases b <;> simp [flushPerDispatch, ih]
    | _ => simp [flushPerDispatch, ih, leadingFlushes_append_quiet tr q hq]

theorem leadingFlushes_append_dispatch (tr rest : List Event) (c : Nat) (t : mscclppTrigger) :
    leadingFlushes (tr ++ Event.processTrigger c t :: rest) = leadingFlushes tr := by
  induction tr with
  | nil => simp [leadingFlushes]
  | cons e tr ih =>
    cases e with
    | flushTail b => cases b <;> simp [leadingFlushes, ih]
    | _ => simp [leadingFlushes, ih]

theorem flushPerDispatch_append_dispatch (tr rest : List Event) (c : Nat)
    (t : mscclppTrigger) :
    flushPerDispatch (tr ++ Event.processTrigger c t :: rest)
      = flushPerDispatch tr ++ leadingFlushes rest :: flushPerDispatch rest := by
  induction tr with
  | nil => simp [flushPerDispatch]
  | cons e tr ih =>
    cases e with
    | flushTail b => cases b <;> simp [flushPerDispatch, ih]
    | _ => simp [flushPerDispatch, ih, leadingFlushes_append_dispatch]

theorem specCalls_quiet (P : ProxyParams) (t : mscclppTrigger) (c : Nat) :
    ∀ e ∈ specCalls P t c, e.quiet = true := by
  unfold specCalls
  split_ifs <;> simp [Event.quiet]

theorem dispatched_afterCheck (s : ServiceState) :
    dispatched (afterCheck s).trace = dispatched s.trace := by
  rw [afterCheck_trace, dispatched_append]
  split <;> simp [dispatched]

theorem transportCalls_afterCheck (s : ServiceState) :
    transportCalls (afterCheck s).trace = transportCalls s.trace := by
  rw [afterCheck_trace, transportCalls_append]
  split <;> simp [transportCalls]

theorem flushPerDispatch_afterCheck (s : ServiceState) :
    flushPerDispatch (afterCheck s).trace = flushPerDispatch s.trace := by
  rw [afterCheck_trace]
  apply flushPerDispatch_append_quiet
  intro e he
  split at he <;> simp_all [Event.quiet]

theorem afterPop_trace (P : ProxyParams) (s : ServiceState) :
    (afterPop P s).trace
      = (s.trace ++ [Event.poll (polledSlot P s)])
        ++ Event.processTrigger (P.connId (polledTrigger P s)) (polledTrigger P s)
          :: (specCalls P (polledTrigger P s) (P.connId (polledTrigger P s)) ++ [Event.pop]) := by
  simp [afterPop]

theorem afterFlush_trace (P : ProxyParams) (env : ProxyEnv) (s : ServiceState) :
    (afterFlush P env s).trace
      = (s.trace ++ [Event.poll (polledSlot P s)])
        ++ Event.processTrigger (P.connId (polledTrigger P s)) (polledTrigger P s)
          :: ((specCalls P (polledTrigger P s) (P.connId (polledTrigger P s)) ++ [Event.pop])
              ++ [Event.flushTail false]) := by
  simp [afterFlush, afterPop]

theorem dispatched_afterPop (P : ProxyParams) (s : ServiceState) :
    dispatched (afterPop P s).trace
      = dispatched s.trace ++ [(P.connId (polledTrigger P s), polledTrigger P s)] := by
  rw [afterPop_trace, dispatched_append, dispatched_append]
  have h := dispatched_specCalls P (polledTrigger P s) (P.connId (polledTrigger P s))
  simp [dispatched] at h ⊢
  exact h

theorem dispatched_afterFlush (P : ProxyParams) (env : ProxyEnv) (s : ServiceState) :
    dispatched (afterFlush P env s).trace
      = dispatched s.trace ++ [(P.connId (polledTrigger P s), polledTrigger P s)] := by
  have h : (afterFlush P env s).trace = (afterPop P s).trace ++ [Event.flushTail false] := rfl
  rw [h, dispatched_append, dispatched_afterPop]
  simp [dispatched]

theorem transportCalls_afterPop (P : ProxyParams) (s : ServiceState) :
    transportCalls (afterPop P s).trace
      = transportCalls s.trace
        ++ transportCalls (specCalls P (polledTrigger P s) (P.connId (polledTrigger P s))) := by
  rw [afterPop_trace]
  simp [transportCalls]

theorem transportCalls_afterFlush (P : ProxyParams) (env : ProxyEnv) (s : ServiceState) :
    transportCalls (afterFlush P env s).trace
      = transportCalls s.trace
        ++ transportCalls (specCalls P (polledTrigger P s) (P.connId (polledTrigger P s))) := by
  have h : (afterFlush P env s).trace = (afterPop P s).trace ++ [Event.flushTail false] := rfl
  rw [h, transportCalls_append, transportCalls_afterPop]
  simp [transportCalls]

theorem flushPerDispatch_afterPop (P : ProxyParams) (s : ServiceState) :
    flushPerDispatch (afterPop P s).trace = flushPerDispatch s.trace ++ [0] := by
  have hq : ∀ e ∈ specCalls P (polledTrigger P s) (P.connId (polledTrigger P s)) ++ [Event.pop],
      e.quiet = true := by
    intro e he
    rcases List.mem_append.1 he with h | h
    · exact specCalls_quiet P _ _ e h
    · simp at h; subst h; rfl
  rw [afterPop_trace, flushPerDispatch_append_dispatch, leadingFlushes_quiet _ hq,
    flushPerDispatch_quiet _ hq, flushPerDispatch_append_quiet]
  intro e he
  simp at he; subst he; rfl

theorem flushPerDispatch_afterFlush (P : ProxyParams) (env : ProxyEnv) (s : ServiceState) :
    flushPerDispatch (afterFlush P env s).trace = flushPerDispatch s.trace ++ [1] := by
  have hq : ∀ e ∈ specCalls P (polledTrigger P s) (P.connId (polledTrigger P s)) ++ [Event.pop],
      e.quiet = true := by
    intro e he
    rcases List.mem_append.1 he with h | h
    · exact specCalls_quiet P _ _ e h
    · simp at h; subst h; rfl
  have h1 : leadingFlushes ((specCalls P (polledTrigger P s) (P.connId (polledTrigger P s))
      ++ [Event.pop]) ++ [Event.flushTail false]) = 1 := by
    generalize specCalls P (polledTrigger P s) (P.connId (polledTrigger P s)) ++ [Event.pop] = q at hq
    induction q with
    | nil => rfl
    | cons e q ih =>
      have he := hq e (List.mem_cons_self _ _)
      have ih1 := ih (fun x hx => hq x (List.mem_cons_of_mem _ hx))
      cases e with
      | flushTail b => cases b <;> simp_all [leadingFlushes, Event.quiet]
      | _ => simp_all [leadingFlushes, Event.quiet]
  have h2 : flushPerDispatch ((specCalls P (polledTrigger P s) (P.connId (polledTrigger P s))
      ++ [Event.pop]) ++ [Event.flushTail false]) = [] := by
    generalize specCalls P (polledTrigger P s) (P.connId (polledTrigger P s)) ++ [Event.pop] = q at hq
    induction q with
    | nil => rfl
    | cons e q ih =>
      have he := hq e (List.mem_cons_self _ _)
      have ih1 := ih (fun x hx => hq x (List.mem_cons_of_mem _ hx))
      cases e with
      | flushTail b => cases b <;> simp_all [flushPerDispatch, Event.quiet]
      | _ => simp_all [flushPerDispatch, Event.quiet]
  rw [afterFlush_trace, flushPerDispatch_append_dispatch, h1, h2, flushPerDispatch_append_quiet]
  intro e he
  simp at he; subst he; rfl

theorem flushExpected_append (P : ProxyParams) (i : Nat) (ds : List (Nat × mscclppTrigger))
    (d : Nat × mscclppTrigger) :
    flushExpected P i (ds ++ [d])
      = flushExpected P i ds ++ [if flushDue P ((i + ds.length + 1) % U64) d.2 then 1 else 0] := by
  induction ds generalizing i with
  | nil => simp [flushExpected]
  | cons x ds ih =>
    have h1 : i + 1 + ds.length + 1 = i + (ds.length + 1) + 1 := by omega
    have h2 := ih (i + 1)
    rw [h1] at h2
    show (if flushDue P ((i + 1) % U64) x.2 then 1 else 0) :: flushExpected P (i + 1) (ds ++ [d])
      = ((if flushDue P ((i + 1) % U64) x.2 then 1 else 0) :: flushExpected P (i + 1) ds)
        ++ [if flushDue P ((i + (ds.length + 1) + 1) % U64) d.2 then 1 else 0]
    rw [h2]; rfl

theorem cadenceInv_fresh (P : ProxyParams) (fifo : mscclppProxyFifo)
    (run : mscclppProxyRunState_t) (ib : Bool) : CadenceInv P (freshState fifo run ib) := by
  constructor <;> rfl

theorem cadenceInv_applyEnv (P : ProxyParams) (a : EnvAction) (s : ServiceState)
    (h : CadenceInv P s) : CadenceInv P (applyEnv a s) := h

theorem cadenceInv_afterCheck (P : ProxyParams) (s : ServiceState)
    (h : CadenceInv P s) : CadenceInv P (afterCheck s) := by
  unfold CadenceInv at *
  rw [afterCheck_flushCnt, dispatched_afterCheck, flushPerDispatch_afterCheck]
  exact h

theorem succ_mod_U64 (n : Nat) : (n % U64 + 1) % U64 = (n + 1) % U64 := by
  unfold U64; omega

theorem cadenceInv_serviceBody (P : ProxyParams) (env : ProxyEnv) (s : ServiceState)
    (h : CadenceInv P s) : CadenceInv P (serviceBody P env s).state := by
  by_cases hz : (polledTrigger P s).value0 = 0
  · rw [serviceBody_empty P env s hz]
    unfold CadenceInv at *
    simp only [Outcome.state, dispatched_append]
    rw [flushPerDispatch_append_quiet _ _ (by intro e he; simp at he; subst he; rfl)]
    simpa [dispatched] using h
  · rw [serviceBody_dispatch P env s hz]
    obtain ⟨h1, h2⟩ := h
    have hcnt : (s.flushCnt + 1) % U64 = (0 + (dispatched s.trace).length + 1) % U64 := by
      rw [h1, succ_mod_U64]; simp
    have hcnt2 : (s.flushCnt + 1) % U64 = ((dispatched s.trace).length + 1) % U64 := by
      rw [h1, succ_mod_U64]
    by_cases hd : flushDue P ((s.flushCnt + 1) % U64) (polledTrigger P s)
    · have hst : CadenceInv P (afterFlush P env s) := by
        constructor
        · rw [dispatched_afterFlush]
          simpa [afterFlush, afterPop] using hcnt2
        · rw [flushPerDispatch_afterFlush, dispatched_afterFlush, flushExpected_append, h2,
            ← hcnt]
          simp [hd]
      rw [if_pos hd]
      split <;> exact hst
    · rw [if_neg hd]
      constructor
      · simp only [Outcome.state]
        rw [dispatched_afterPop]
        simpa [afterPop] using hcnt2
      · simp only [Outcome.state]
        rw [flushPerDispatch_afterPop, dispatched_afterPop, flushExpected_append, h2, ← hcnt]
        simp [hd]

theorem cadenceInv_serviceIter (P : ProxyParams) (env : ProxyEnv) (s : ServiceState)
    (h : CadenceInv P s) : CadenceInv P (serviceIter P env s).state := by
  rw [serviceIter_eq]
  split
  · exact cadenceInv_afterCheck P s h
  · exact cadenceInv_serviceBody P env _ (cadenceInv_afterCheck P s h)

theorem cadenceInv_serviceLoop (P : ProxyParams) (env : ProxyEnv) (sched : List EnvAction)
    (s : ServiceState) (h : CadenceInv P s) : CadenceInv P (serviceLoop P env sched s).state := by
  induction sched generalizing s with
  | nil => exact h
  | cons a rest ih =>
    have hi := cadenceInv_serviceIter P env (applyEnv a s) (cadenceInv_applyEnv P a s h)
    unfold serviceLoop
    split
    · rename_i s1 heq
      rw [heq] at hi
      exact ih s1 hi
    · exact hi

theorem getD_set_eq {α : Type} (l : List α) (i : Nat) (a d : α) (h : i < l.length) :
    (l.set i a).getD i d = a := by
  simp [List.getD_eq_getElem?_getD, h]

theorem getD_set_ne {α : Type} (l : List α) (i j : Nat) (a d : α) (h : i ≠ j) :
    (l.set i a).getD j d = l.getD j d := by
  simp [List.getD_eq_getElem?_getD, List.getElem?_set_ne h]

theorem applyEnv_idle (s : ServiceState) : applyEnv EnvAction.idle s = s := by
  rcases s with ⟨⟨_, _, _, _⟩, _, _, _, _, _⟩
  rfl

theorem serviceLoop_cons_idle (P : ProxyParams) (env : ProxyEnv) (rest : List EnvAction)
    (s : ServiceState) :
    serviceLoop P env (EnvAction.idle :: rest) s =
      match serviceIter P env s with
      | Outcome.next s1 => serviceLoop P env rest s1
      | o => o := by
  rw [serviceLoop, applyEnv_idle]

theorem serviceLoop_append (P : ProxyParams) (env : ProxyEnv) (l1 l2 : List EnvAction)
    (s : ServiceState) :
    serviceLoop P env (l1 ++ l2) s =
      match serviceLoop P env l1 s with
      | Outcome.next s1 => serviceLoop P env l2 s1
      | o => o := by
  induction l1 generalizing s with
  | nil => rfl
  | cons a l1 ih =>
    simp only [List.cons_append, serviceLoop]
    cases h : serviceIter P env (applyEnv a s) with
    | next s1 => simpa using ih s1
    | brk s1 => rfl
    | ret s1 => rfl

theorem slotOf_zero (P : ProxyParams) (h : Nat) (hh : h < U64) :
    slotOf P h 0 = h % P.MSCCLPP_PROXY_FIFO_SIZE := by
  unfold slotOf
  rw [Nat.add_zero, Nat.mod_eq_of_lt hh]

theorem slotOf_succ (P : ProxyParams) (h i : Nat) :
    slotOf P ((h + 1) % U64) i = slotOf P h (i + 1) := by
  unfold slotOf
  have : ((h + 1) % U64 + i) % U64 = (h + (i + 1)) % U64 := by unfold U64; omega
  rw [this]

theorem slotOf_lt (P : ProxyParams) (h i : Nat) (hN : 0 < P.MSCCLPP_PROXY_FIFO_SIZE) :
    slotOf P h i < P.MSCCLPP_PROXY_FIFO_SIZE := Nat.mod_lt _ hN

/-- Within a window of at most `MSCCLPP_PROXY_FIFO_SIZE` pops that does not cross the
wrap of the 64-bit tail (or with a ring depth that divides `2 ^ 64`), the slots are
pairwise distinct. -/
theorem slotOf_ne (P : ProxyParams) (h n i j : Nat)
    (hn : n ≤ P.MSCCLPP_PROXY_FIFO_SIZE)
    (hw : h + n ≤ U64 ∨ P.MSCCLPP_PROXY_FIFO_SIZE ∣ U64)
    (hij : i < j) (hj : j < n) : slotOf P h i ≠ slotOf P h j := by
  have key : (h + i) % P.MSCCLPP_PROXY_FIFO_SIZE ≠ (h + j) % P.MSCCLPP_PROXY_FIFO_SIZE := by
    intro heq
    have h0 := Nat.sub_mod_eq_zero_of_mod_eq heq.symm
    have h1 : h + j - (h + i) = j - i := by omega
    rw [h1] at h0
    have h2 := Nat.le_of_dvd (by omega) (Nat.dvd_of_mod_eq_zero h0)
    omega
  unfold slotOf
  rcases hw with hw | hw
  · rw [Nat.mod_eq_of_lt (by omega : h + i < U64), Nat.mod_eq_of_lt (by omega : h + j < U64)]
    exact key
  · rw [Nat.mod_mod_of_dvd _ hw, Nat.mod_mod_of_dvd _ hw]
    exact key

theorem afterPop_fifo (P : ProxyParams) (s : ServiceState) :
    (afterPop P s).fifo =
      { s.fifo with
        triggerFifo := s.fifo.triggerFifo.set (polledSlot P s)
          { polledTrigger P s with value0 := 0 }
        fifoTailHost := (s.fifo.fifoTailHost + 1) % U64 } := rfl

theorem flushTail_fails (P : ProxyParams) (env : ProxyEnv) (f : mscclppProxyFifo)
    (h : proxyCheckFails (f.flushTail P env false).1 = true) :
    P.MSCCLPP_USE_GDRCOPY = false ∧ env.cudaMemcpyAsync f.fifoTailHost = false
      ∧ (f.flushTail P env false).2 = f := by
  unfold mscclppProxyFifo.flushTail at h ⊢
  by_cases hg : P.MSCCLPP_USE_GDRCOPY = true
  · simp [hg, proxyCheckFails] at h
  · by_cases hm : env.cudaMemcpyAsync f.fifoTailHost = false
    · simp [hg, hm]
    · simp [hg, hm, proxyCheckFails] at h


theorem flushTail_publishes (P : ProxyParams) (env : ProxyEnv) (f : mscclppProxyFifo)
    (h : proxyCheckFails (f.flushTail P env false).1 = false) :
    Published P f (f.flushTail P env false).2 := by
  unfold mscclppProxyFifo.flushTail at h ⊢
  by_cases hg : P.MSCCLPP_USE_GDRCOPY = true
  · simp [hg, Published]
  · by_cases hm : env.cudaMemcpyAsync f.fifoTailHost = false
    · simp [hg, hm, proxyCheckFails] at h
    · simp [hg, hm, Published]

theorem serviceIter_ret (P : ProxyParams) (env : ProxyEnv) (s s1 : ServiceState)
    (h : serviceIter P env s = Outcome.ret s1) :
    P.MSCCLPP_USE_GDRCOPY = false ∧ env.cudaMemcpyAsync s1.fifo.fifoTailHost = false
      ∧ s1.trace.getLast? = some (Event.flushTail false) ∧ s1.run = s.run := by
  rw [serviceIter_eq] at h
  split at h
  · exact absurd h (by simp)
  · by_cases hz : (polledTrigger P (afterCheck s)).value0 = 0
    · rw [serviceBody_empty P env _ hz] at h
      exact absurd h (by simp)
    · rw [serviceBody_dispatch P env _ hz] at h
      split at h
      · split at h
        · rename_i hf
          injection h with h
          subst h
          obtain ⟨h1, h2, h3⟩ := flushTail_fails P env _ hf
          refine ⟨h1, ?_, ?_, ?_⟩
          · show env.cudaMemcpyAsync
              ((afterPop P (afterCheck s)).fifo.flushTail P env false).2.fifoTailHost = false
            rw [h3]; exact h2
          · simp [afterFlush]
          · simp [afterFlush, afterPop, afterCheck_run]
        · exact absurd h (by simp)
      · exact absurd h (by simp)


theorem flushTail_frame (P : ProxyParams) (env : ProxyEnv) (f : mscclppProxyFifo)
    (sync : Bool) :
    (f.flushTail P env sync).2.triggerFifo = f.triggerFifo
      ∧ (f.flushTail P env sync).2.fifoTailHost = f.fifoTailHost := by
  unfold mscclppProxyFifo.flushTail
  split
  · exact ⟨rfl, rfl⟩
  · split
    · exact ⟨rfl, rfl⟩
    · split
      · split <;> exact ⟨rfl, rfl⟩
      · exact ⟨rfl, rfl⟩

/-- A dispatching iteration either goes on to the next iteration or returns from a
failed `flushTail()`. -/
theorem serviceIter_dispatch_cases (P : ProxyParams) (env : ProxyEnv) (s : ServiceState)
    (hcheck : s.runCnt = 0 → s.run = mscclppProxyRunState_t.MSCCLPP_PROXY_RUN_STATE_RUNNING)
    (hnz : (polledTrigger P s).value0 ≠ 0) :
    (∃ s1, serviceIter P env s = Outcome.next s1 ∧ DispatchStep P s s1)
      ∨ (∃ s1, serviceIter P env s = Outcome.ret s1) := by
  have hnz1 : (polledTrigger P (afterCheck s)).value0 ≠ 0 := by
    rw [polledTrigger_afterCheck]; exact hnz
  have hb : ¬ (s.runCnt = 0 ∧ s.run ≠ mscclppProxyRunState_t.MSCCLPP_PROXY_RUN_STATE_RUNNING) :=
    fun h => h.2 (hcheck h.1)
  rw [serviceIter_eq, if_neg hb, serviceBody_dispatch P env _ hnz1]
  by_cases hd : flushDue P (((afterCheck s).flushCnt + 1) % U64) (polledTrigger P (afterCheck s))
  · rw [if_pos hd]
    by_cases hf : proxyCheckFails ((afterPop P (afterCheck s)).fifo.flushTail P env false).1 = true
    · rw [if_pos hf]
      exact Or.inr ⟨_, rfl⟩
    · rw [if_neg hf]
      left
      have hfr := flushTail_frame P env (afterPop P (afterCheck s)).fifo false
      have hpub := flushTail_publishes P env (afterPop P (afterCheck s)).fifo
        (by simpa using hf)
      refine ⟨afterFlush P env (afterCheck s), rfl, ?_⟩
      refine ⟨?_, ?_, ?_, ?_, ?_, ?_, ?_, ?_, ?_⟩
      · show ((afterPop P (afterCheck s)).fifo.flushTail P env false).2.triggerFifo = _
        rw [hfr.1]
        simp [afterPop_fifo, polledSlot_afterCheck, polledTrigger_afterCheck, afterCheck_fifo]
      · show ((afterPop P (afterCheck s)).fifo.flushTail P env false).2.fifoTailHost = _
        rw [hfr.2]
        simp [afterPop_fifo, afterCheck_fifo]
      · show ((afterPop P (afterCheck s)).fifo.flushTail P env false).2.fifoTailDev
            = s.fifo.fifoTailDev
          ∨ ((afterPop P (afterCheck s)).fifo.flushTail P env false).2.fifoTailDev
            = ((afterPop P (afterCheck s)).fifo.flushTail P env false).2.fifoTailHost
        cases hg : P.MSCCLPP_USE_GDRCOPY
        · left
          rw [(hpub.2.2.2 hg).1]
          simp [afterPop_fifo, afterCheck_fifo]
        · right
          rw [(hpub.2.2.1 hg).1, hpub.2.1]
      · simp [afterFlush, afterPop, afterCheck_run]
      · simp [afterFlush, afterPop, afterCheck_ibContext]
      · simp [afterFlush, afterPop, afterCheck_runCnt]
      · simp [afterFlush, afterPop, afterCheck_flushCnt]
      · rw [dispatched_afterFlush, dispatched_afterCheck, polledTrigger_afterCheck]
      · rw [transportCalls_afterFlush, transportCalls_afterCheck, polledTrigger_afterCheck]
  · rw [if_neg hd]
    left
    refine ⟨afterPop P (afterCheck s), rfl, ?_⟩
    refine ⟨?_, ?_, ?_, ?_, ?_, ?_, ?_, ?_, ?_⟩
    · simp [afterPop_fifo, polledSlot_afterCheck, polledTrigger_afterCheck, afterCheck_fifo]
    · simp [afterPop_fifo, afterCheck_fifo]
    · left
      simp [afterPop_fifo, afterCheck_fifo]
    · simp [afterPop, afterCheck_run]
    · simp [afterPop, afterCheck_ibContext]
    · simp [afterPop, afterCheck_runCnt]
    · simp [afterPop, afterCheck_flushCnt]
    · rw [dispatched_afterPop, dispatched_afterCheck, polledTrigger_afterCheck]
    · rw [transportCalls_afterPop, transportCalls_afterCheck, polledTrigger_afterCheck]

theorem ret_not_flushOk (P : ProxyParams) (env : ProxyEnv) (s s1 : ServiceState)
    (h : serviceIter P env s = Outcome.ret s1) : ¬ FlushOk P env := by
  obtain ⟨h1, h2, -, -⟩ := serviceIter_ret P env s s1 h
  intro hok
  rcases hok with hok | hok
  · rw [h1] at hok; exact absurd hok (by simp)
  · rw [hok] at h2; exact absurd h2 (by simp)

theorem serviceLoop_ret (P : ProxyParams) (env : ProxyEnv) (sched : List EnvAction) :
    ∀ s s1 : ServiceState, serviceLoop P env sched s = Outcome.ret s1 → ¬ FlushOk P env := by
  induction sched with
  | nil => intro s s1 h; exact absurd h (by simp [serviceLoop])
  | cons a rest ih =>
    intro s s1 h
    unfold serviceLoop at h
    cases hi : serviceIter P env (applyEnv a s) with
    | next s2 => rw [hi] at h; exact ih s2 s1 h
    | brk s2 => rw [hi] at h; exact absurd h (by simp)
    | ret s2 => exact ret_not_flushOk P env _ s2 hi

theorem serviceIter_dispatch (P : ProxyParams) (env : ProxyEnv) (s : ServiceState)
    (hcheck : s.runCnt = 0 → s.run = mscclppProxyRunState_t.MSCCLPP_PROXY_RUN_STATE_RUNNING)
    (hnz : (polledTrigger P s).value0 ≠ 0) (hcuda : FlushOk P env) :
    ∃ s1, serviceIter P env s = Outcome.next s1 ∧ DispatchStep P s s1 := by
  rcases serviceIter_dispatch_cases P env s hcheck hnz with h | ⟨s1, h⟩
  · exact h
  · exact absurd hcuda (ret_not_flushOk P env s s1 h)

theorem drain_cases (P : ProxyParams) (env : ProxyEnv) (hN : 0 < P.MSCCLPP_PROXY_FIFO_SIZE)
    (trigs : List mscclppTrigger) :
    ∀ s : ServiceState,
      s.fifo.triggerFifo.length = P.MSCCLPP_PROXY_FIFO_SIZE →
      s.fifo.fifoTailHost < U64 →
      Pending P s trigs →
      (∀ i j, i < j → j < trigs.length →
        slotOf P s.fifo.fifoTailHost i ≠ slotOf P s.fifo.fifoTailHost j) →
      (∀ t ∈ trigs, t.value0 ≠ 0) →
      (s.run = mscclppProxyRunState_t.MSCCLPP_PROXY_RUN_STATE_RUNNING
        ∨ (trigs.length : Int) ≤ s.runCnt) →
      (∃ s1, serviceLoop P env (List.replicate trigs.length EnvAction.idle) s = Outcome.next s1
        ∧ Drained P trigs s s1)
      ∨ (∃ s1, serviceLoop P env (List.replicate trigs.length EnvAction.idle) s
          = Outcome.ret s1) := by
  induction trigs with
  | nil =>
    intro s _ hh _ _ _ _
    left
    refine ⟨s, rfl, ?_⟩
    refine ⟨by simp, by simp [callsFor], ?_, rfl, rfl, by simp, rfl, fun _ _ => rfl, ?_⟩
    · simp [Nat.mod_eq_of_lt hh]
    · intro i hi; simp at hi
  | cons t ts ih =>
    intro s hlen hh hpend hdist hnz hrun
    have hslot0 : slotOf P s.fifo.fifoTailHost 0 = polledSlot P s := slotOf_zero P _ hh
    have hpolled : polledTrigger P s = t := by
      have := hpend 0 (by simp)
      rw [hslot0] at this
      simpa [polledTrigger, polledSlot] using this
    have hcheck : s.runCnt = 0 →
        s.run = mscclppProxyRunState_t.MSCCLPP_PROXY_RUN_STATE_RUNNING := by
      intro h0
      rcases hrun with h | h
      · exact h
      · rw [h0] at h; simp at h; omega
    rcases serviceIter_dispatch_cases P env s hcheck
      (by rw [hpolled]; exact hnz t (List.mem_cons_self _ _)) with ⟨s1, hs1, hstep⟩ | ⟨s1, hs1⟩
    swap
    · right
      refine ⟨s1, ?_⟩
      simp only [List.length_cons, List.replicate_succ]
      rw [serviceLoop_cons_idle, hs1]
    obtain ⟨hfifo, htail, -, hrun1, hib1, hcnt1, -, hdisp1, hcalls1⟩ := hstep
    have hslotlt : polledSlot P s < s.fifo.triggerFifo.length := by
      rw [hlen]; exact Nat.mod_lt _ hN
    have hne : ∀ i, i < ts.length →
        polledSlot P s ≠ slotOf P s.fifo.fifoTailHost (i + 1) := by
      intro i hi
      rw [← hslot0]
      exact hdist 0 (i + 1) (by omega) (by simp; omega)
    have hlen1 : s1.fifo.triggerFifo.length = P.MSCCLPP_PROXY_FIFO_SIZE := by
      rw [hfifo, List.length_set, hlen]
    have hh1 : s1.fifo.fifoTailHost < U64 := by
      rw [htail]; exact Nat.mod_lt _ (by unfold U64; omega)
    have hpend1 : Pending P s1 ts := by
      intro i hi
      rw [htail, slotOf_succ, hfifo, getD_set_ne _ _ _ _ _ (hne i hi)]
      have := hpend (i + 1) (by simp; omega)
      simpa using this
    have hdist1 : ∀ i j, i < j → j < ts.length →
        slotOf P s1.fifo.fifoTailHost i ≠ slotOf P s1.fifo.fifoTailHost j := by
      intro i j hij hj
      rw [htail, slotOf_succ, slotOf_succ]
      exact hdist (i + 1) (j + 1) (by omega) (by simp; omega)
    have hrun2 : s1.run = mscclppProxyRunState_t.MSCCLPP_PROXY_RUN_STATE_RUNNING
        ∨ (ts.length : Int) ≤ s1.runCnt := by
      rcases hrun with h | h
      · left; rw [hrun1]; exact h
      · right
        have hc : s.runCnt ≠ 0 := by
          intro h0; rw [h0] at h; simp at h; omega
        rw [hcnt1, if_neg hc]
        simp at h
        omega
    rcases ih s1 hlen1 hh1 hpend1 hdist1
      (fun x hx => hnz x (List.mem_cons_of_mem _ hx)) hrun2 with ⟨s2, hs2, hd2⟩ | ⟨s2, hs2⟩
    swap
    · right
      refine ⟨s2, ?_⟩
      simp only [List.length_cons, List.replicate_succ]
      rw [serviceLoop_cons_idle, hs1]
      exact hs2
    obtain ⟨hdisp2, hcalls2, htail2, hrun3, hib2, hcnt2, hlen2, hkeep2, hzero2⟩ := hd2
    left
    refine ⟨s2, ?_, ?_⟩
    · simp only [List.length_cons, List.replicate_succ]
      rw [serviceLoop_cons_idle, hs1]
      exact hs2
    · refine ⟨?_, ?_, ?_, ?_, ?_, ?_, ?_, ?_, ?_⟩
      · rw [hdisp2, hdisp1, hpolled]; simp
      · rw [hcalls2, hcalls1, hpolled]; simp [callsFor]
      · rw [htail2, htail]
        simp only [List.length_cons]
        unfold U64; omega
      · rw [hrun3, hrun1]
      · rw [hib2, hib1]
      · intro hle
        have hc : s.runCnt ≠ 0 := by
          intro h0; rw [h0] at hle; simp at hle; omega
        simp only [List.length_cons] at hle ⊢
        rw [hcnt2 (by rw [hcnt1, if_neg hc]; push_cast at hle ⊢; omega), hcnt1, if_neg hc]
        push_cast
        omega
      · rw [hlen2, hfifo, List.length_set]
      · intro j hj
        have hj0 : polledSlot P s ≠ j := by
          rw [← hslot0]
          exact fun h => hj 0 (by simp) h.symm
        rw [hkeep2 j (fun i hi => by
          rw [htail, slotOf_succ]
          exact hj (i + 1) (by simp; omega)), hfifo, getD_set_ne _ _ _ _ _ hj0]
      · intro i hi
        cases i with
        | zero =>
          rw [hslot0, hkeep2 _ (fun i hi => by
            rw [htail, slotOf_succ]
            exact hne i hi), hfifo, getD_set_eq _ _ _ _ hslotlt]
        | succ i =>
          have := hzero2 i (by simpa using hi)
          rw [htail, slotOf_succ] at this
          exact this


theorem drain (P : ProxyParams) (env : ProxyEnv) (hN : 0 < P.MSCCLPP_PROXY_FIFO_SIZE)
    (hcuda : FlushOk P env) (trigs : List mscclppTrigger) :
    ∀ s : ServiceState,
      s.fifo.triggerFifo.length = P.MSCCLPP_PROXY_FIFO_SIZE →
      s.fifo.fifoTailHost < U64 →
      Pending P s trigs →
      (∀ i j, i < j → j < trigs.length →
        slotOf P s.fifo.fifoTailHost i ≠ slotOf P s.fifo.fifoTailHost j) →
      (∀ t ∈ trigs, t.value0 ≠ 0) →
      (s.run = mscclppProxyRunState_t.MSCCLPP_PROXY_RUN_STATE_RUNNING
        ∨ (trigs.length : Int) ≤ s.runCnt) →
      ∃ s1, serviceLoop P env (List.replicate trigs.length EnvAction.idle) s = Outcome.next s1
        ∧ Drained P trigs s s1 := by
  intro s h1 h2 h3 h4 h5 h6
  rcases drain_cases P env hN trigs s h1 h2 h3 h4 h5 h6 with h | ⟨s1, h⟩
  · exact h
  · exact absurd hcuda (serviceLoop_ret P env _ s s1 h)

theorem drain_next (P : ProxyParams) (env : ProxyEnv) (hN : 0 < P.MSCCLPP_PROXY_FIFO_SIZE)
    (trigs : List mscclppTrigger) :
    ∀ s : ServiceState,
      s.fifo.triggerFifo.length = P.MSCCLPP_PROXY_FIFO_SIZE →
      s.fifo.fifoTailHost < U64 →
      Pending P s trigs →
      (∀ i j, i < j → j < trigs.length →
        slotOf P s.fifo.fifoTailHost i ≠ slotOf P s.fifo.fifoTailHost j) →
      (∀ t ∈ trigs, t.value0 ≠ 0) →
      (s.run = mscclppProxyRunState_t.MSCCLPP_PROXY_RUN_STATE_RUNNING
        ∨ (trigs.length : Int) ≤ s.runCnt) →
      ∀ s1, serviceLoop P env (List.replicate trigs.length EnvAction.idle) s = Outcome.next s1 →
        Drained P trigs s s1 := by
  intro s h1 h2 h3 h4 h5 h6 s1 hs1
  rcases drain_cases P env hN trigs s h1 h2 h3 h4 h5 h6 with ⟨s2, h, hd⟩ | ⟨s2, h⟩
  · rw [h] at hs1
    injection hs1 with hs1
    subst hs1
    exact hd
  · rw [h] at hs1
    exact absurd hs1 (by simp)

theorem serviceIter_empty (P : ProxyParams) (env : ProxyEnv) (s : ServiceState)
    (hz : (polledTrigger P s).value0 = 0) (hc : s.runCnt ≠ 0) :
    serviceIter P env s = Outcome.next (spun P s 1) := by
  have hz1 : (polledTrigger P (afterCheck s)).value0 = 0 := by
    rw [polledTrigger_afterCheck]; exact hz
  rw [serviceIter_eq, if_neg (fun h => hc h.1), serviceBody_empty P env _ hz1,
    polledSlot_afterCheck]
  simp [afterCheck, hc, spun]

theorem serviceIter_break (P : ProxyParams) (env : ProxyEnv) (s : ServiceState)
    (hc : s.runCnt = 0)
    (hr : s.run ≠ mscclppProxyRunState_t.MSCCLPP_PROXY_RUN_STATE_RUNNING) :
    serviceIter P env s = Outcome.brk { s with
      runCnt := MSCCLPP_PROXY_RUN_STATE_CHECK_PERIOD
      trace := s.trace ++ [Event.readRun s.run] } := by
  rw [serviceIter_eq, if_pos ⟨hc, hr⟩]
  simp [afterCheck, hc]

theorem spin (P : ProxyParams) (env : ProxyEnv) (n : Nat) :
    ∀ s : ServiceState, (polledTrigger P s).value0 = 0 → (n : Int) ≤ s.runCnt →
      serviceLoop P env (List.replicate n EnvAction.idle) s = Outcome.next (spun P s n) := by
  induction n with
  | zero =>
    intro s _ _
    simp [serviceLoop, spun]
  | succ n ih =>
    intro s hz hn
    have hc : s.runCnt ≠ 0 := by
      intro h0; rw [h0] at hn; push_cast at hn; omega
    rw [List.replicate_succ, serviceLoop_cons_idle, serviceIter_empty P env s hz hc]
    have h1 : (polledTrigger P (spun P s 1)).value0 = 0 := hz
    have h2 : (n : Int) ≤ (spun P s 1).runCnt := by
      simp only [spun]; push_cast at hn ⊢; omega
    simp only []
    rw [ih (spun P s 1) h1 h2]
    congr 1
    simp only [spun, polledSlot, List.append_assoc, ServiceState.mk.injEq, true_and]
    constructor
    · push_cast; omega
    · simp [List.replicate_succ]

theorem spin_then_break (P : ProxyParams) (env : ProxyEnv) (c : Nat) (s : ServiceState)
    (rest : List EnvAction)
    (hz : (polledTrigger P s).value0 = 0) (hc : s.runCnt = c)
    (hr : s.run ≠ mscclppProxyRunState_t.MSCCLPP_PROXY_RUN_STATE_RUNNING) :
    serviceLoop P env (List.replicate c EnvAction.idle ++ EnvAction.idle :: rest) s
      = Outcome.brk { s with
          runCnt := MSCCLPP_PROXY_RUN_STATE_CHECK_PERIOD
          trace := s.trace ++ List.replicate c (Event.poll (polledSlot P s))
            ++ [Event.readRun s.run] } := by
  rw [serviceLoop_append, spin P env c s hz (by rw [hc])]
  simp only []
  rw [serviceLoop_cons_idle, serviceIter_break P env (spun P s c) (by simp [spun, hc]) hr]
  simp [spun]

theorem streamRun_length (f : mscclppProxyFifo) (l : List Nat) (v : Nat)
    (h : f.stream = l ++ [v]) :
    streamRun f.stream.length f = { f with fifoTailDev := v, stream := [] } := by
  unfold streamRun
  rw [List.take_length, List.drop_length, h]
  simp

theorem streamRun_all (f : mscclppProxyFifo) (v : Nat) :
    streamRun (f.stream ++ [v]).length { f with stream := f.stream ++ [v] }
      = { f with fifoTailDev := v, stream := [] } :=
  streamRun_length { f with stream := f.stream ++ [v] } f.stream v rfl

theorem flushTail_sync_ok (P : ProxyParams) (env : ProxyEnv) (f : mscclppProxyFifo)
    (h : FlushOk P env) (hs : P.MSCCLPP_USE_GDRCOPY = true ∨ env.cudaStreamSynchronize = true) :
    f.flushTail P env true = (mscclppResult_t.mscclppSuccess, syncFlushed P f) := by
  unfold mscclppProxyFifo.flushTail syncFlushed
  cases hg : P.MSCCLPP_USE_GDRCOPY
  · have h1 : ∀ v, env.cudaMemcpyAsync v = true := by
      rcases h with h | h
      · rw [hg] at h; exact absurd h (by simp)
      · exact h
    have h2 : env.cudaStreamSynchronize = true := by
      rcases hs with hs | hs
      · rw [hg] at hs; exact absurd hs (by simp)
      · exact hs
    simp only [h1, h2, if_true, if_false, Bool.false_eq_true, Bool.true_eq_false]
    rw [streamRun_all]
  · simp

theorem syncFlushed_tailHost (P : ProxyParams) (f : mscclppProxyFifo) :
    (syncFlushed P f).fifoTailHost = f.fifoTailHost := by
  unfold syncFlushed; split <;> rfl

theorem syncFlushed_tailDev (P : ProxyParams) (f : mscclppProxyFifo) :
    (syncFlushed P f).fifoTailDev = f.fifoTailHost := by
  unfold syncFlushed; split <;> rfl

theorem serviceExit_ok (P : ProxyParams) (env : ProxyEnv) (s : ServiceState)
    (h : FlushOk P env) (he : ExitOk P env s.ibContext) :
    serviceExit P env s = ServiceResult.finished { s with
      fifo := syncFlushed P s.fifo
      run := mscclppProxyRunState_t.MSCCLPP_PROXY_RUN_STATE_IDLE
      trace := s.trace ++ [Event.flushTail true]
        ++ (if s.ibContext then [] else [Event.p2pStreamSynchronize])
        ++ [Event.storeRun mscclppProxyRunState_t.MSCCLPP_PROXY_RUN_STATE_IDLE] } := by
  unfold serviceExit
  rw [flushTail_sync_ok P env _ h he.1]
  cases hib : s.ibContext
  · have := he.2 hib
    simp [proxyCheckFails, hib, this]
  · simp [proxyCheckFails, hib]

theorem or3_and_left (a b c : Nat) : (a ||| b ||| c) &&& a = a := by
  apply Nat.eq_of_testBit_eq
  intro i
  simp only [Nat.testBit_and, Nat.testBit_or]
  cases a.testBit i <;> simp

theorem or3_and_mid (a b c : Nat) : (a ||| b ||| c) &&& b = b := by
  apply Nat.eq_of_testBit_eq
  intro i
  simp only [Nat.testBit_and, Nat.testBit_or]
  cases b.testBit i <;> simp

theorem or3_and_right (a b c : Nat) : (a ||| b ||| c) &&& c = c := by
  apply Nat.eq_of_testBit_eq
  intro i
  simp only [Nat.testBit_and, Nat.testBit_or]
  cases c.testBit i <;> simp

theorem serviceIter_treats_empty (P : ProxyParams) (env : ProxyEnv) (s : ServiceState)
    (hz : (polledTrigger P s).value0 = 0) : TreatedAsEmpty P env s := by
  have hz1 : (polledTrigger P (afterCheck s)).value0 = 0 := by
    rw [polledTrigger_afterCheck]; exact hz
  unfold TreatedAsEmpty
  rw [serviceIter_eq]
  by_cases hb : s.runCnt = 0 ∧ s.run ≠ mscclppProxyRunState_t.MSCCLPP_PROXY_RUN_STATE_RUNNING
  · rw [if_pos hb]
    refine ⟨afterCheck s, Or.inr rfl, afterCheck_fifo s, afterCheck_flushCnt s,
      afterCheck_run s, _, afterCheck_trace s, ?_⟩
    intro e he
    split at he <;> simp_all
  · rw [if_neg hb, serviceBody_empty P env _ hz1]
    refine ⟨_, Or.inl rfl, afterCheck_fifo s, afterCheck_flushCnt s, afterCheck_run s,
      (if s.runCnt = 0 then [Event.readRun s.run] else [])
        ++ [Event.poll (polledSlot P s)], ?_, ?_⟩
    · simp [afterCheck_trace, polledSlot_afterCheck]
    · intro e he
      rcases List.mem_append.1 he with h | h
      · split at h <;> simp_all
      · simp at h; exact Or.inr h

theorem specCalls_type_zero (P : ProxyParams) (t : mscclppTrigger) (c : Nat)
    (h : P.type t = 0) : specCalls P t c = [] := by
  simp [specCalls, h]

theorem serviceIter_type_zero (P : ProxyParams) (env : ProxyEnv) (s : ServiceState)
    (h : P.type (polledTrigger P s) = 0) :
    transportCalls (serviceIter P env s).state.trace = transportCalls s.trace := by
  have h1 : P.type (polledTrigger P (afterCheck s)) = 0 := by
    rw [polledTrigger_afterCheck]; exact h
  rw [serviceIter_eq]
  split
  · exact transportCalls_afterCheck s
  · by_cases hz : (polledTrigger P (afterCheck s)).value0 = 0
    · rw [serviceBody_empty P env _ hz]
      simp only [Outcome.state, transportCalls_append, transportCalls_afterCheck]
      simp [transportCalls]
    · rw [serviceBody_dispatch P env _ hz]
      split
      · split
        · simp only [Outcome.state]
          rw [transportCalls_afterFlush, specCalls_type_zero P _ _ h1, transportCalls_afterCheck]
          simp [transportCalls]
        · simp only [Outcome.state]
          rw [transportCalls_afterFlush, specCalls_type_zero P _ _ h1, transportCalls_afterCheck]
          simp [transportCalls]
      · simp only [Outcome.state]
        rw [transportCalls_afterPop, specCalls_type_zero P _ _ h1, transportCalls_afterCheck]
        simp [transportCalls]

theorem flushExpected_length (P : ProxyParams) (i : Nat) (ds : List (Nat × mscclppTrigger)) :
    (flushExpected P i ds).length = ds.length := by
  induction ds generalizing i with
  | nil => rfl
  | cons d ds ih => simp [flushExpected, ih]

theorem flushExpected_getD (P : ProxyParams) (ds : List (Nat × mscclppTrigger)) :
    ∀ (i j : Nat), j < ds.length →
      (flushExpected P i ds).getD j 0
        = if flushDue P ((i + j + 1) % U64) (ds.getD j (0, zeroTrigger)).2 then 1 else 0 := by
  induction ds with
  | nil => intro i j hj; simp at hj
  | cons d ds ih =>
    intro i j hj
    cases j with
    | zero => simp [flushExpected]
    | succ j =>
      have h1 := ih (i + 1) j (by simpa using hj)
      have h2 : i + 1 + j + 1 = i + (j + 1) + 1 := by omega
      rw [h2] at h1
      simpa [flushExpected] using h1

theorem flushTail_not_mem_specCalls (P : ProxyParams) (t : mscclppTrigger) (c : Nat)
    (b : Bool) : Event.flushTail b ∉ specCalls P t c := by
  unfold specCalls
  split_ifs <;> simp

theorem serviceIter_flush_publishes (P : ProxyParams) (env : ProxyEnv) (s s1 : ServiceState)
    (h : serviceIter P env s = Outcome.next s1)
    (hf : Event.flushTail false ∈ s1.trace.drop s.trace.length) :
    s1.trace.getLast? = some (Event.flushTail false)
      ∧ (P.MSCCLPP_USE_GDRCOPY = true → s1.fifo.fifoTailDev = s1.fifo.fifoTailHost)
      ∧ (P.MSCCLPP_USE_GDRCOPY = false →
          s1.fifo.fifoTailDev = s.fifo.fifoTailDev
          ∧ s1.fifo.stream = s.fifo.stream ++ [s1.fifo.fifoTailHost]
          ∧ (streamRun s1.fifo.stream.length s1.fifo).fifoTailDev = s1.fifo.fifoTailHost) := by
  rw [serviceIter_eq] at h
  split at h
  · exact absurd h (by simp)
  · by_cases hz : (polledTrigger P (afterCheck s)).value0 = 0
    · rw [serviceBody_empty P env _ hz] at h
      injection h with h
      subst h
      simp only [afterCheck_trace, List.append_assoc, List.drop_left] at hf
      split at hf <;> simp at hf
    · rw [serviceBody_dispatch P env _ hz] at h
      split at h
      · split at h
        · exact absurd h (by simp)
        · rename_i hc
          injection h with h
          subst h
          have hpub := flushTail_publishes P env (afterPop P (afterCheck s)).fifo
            (by simpa using hc)
          obtain ⟨-, hth, hgdr, hcpy⟩ := hpub
          have hdev0 : (afterPop P (afterCheck s)).fifo.fifoTailDev = s.fifo.fifoTailDev := by
            simp [afterPop_fifo, afterCheck_fifo]
          have hstr0 : (afterPop P (afterCheck s)).fifo.stream = s.fifo.stream := by
            simp [afterPop_fifo, afterCheck_fifo]
          refine ⟨by simp [afterFlush], ?_, ?_⟩
          · intro hg
            show ((afterPop P (afterCheck s)).fifo.flushTail P env false).2.fifoTailDev
              = ((afterPop P (afterCheck s)).fifo.flushTail P env false).2.fifoTailHost
            rw [(hgdr hg).1, hth]
          · intro hg
            have hs1 : ((afterPop P (afterCheck s)).fifo.flushTail P env false).2.stream
                = s.fifo.stream
                  ++ [((afterPop P (afterCheck s)).fifo.flushTail P env false).2.fifoTailHost] := by
              rw [(hcpy hg).2, hth, hstr0]
            refine ⟨?_, hs1, ?_⟩
            · show ((afterPop P (afterCheck s)).fifo.flushTail P env false).2.fifoTailDev = _
              rw [(hcpy hg).1, hdev0]
            · show (streamRun
                  ((afterPop P (afterCheck s)).fifo.flushTail P env false).2.stream.length
                  ((afterPop P (afterCheck s)).fifo.flushTail P env false).2).fifoTailDev = _
              rw [streamRun_length _ _ _ hs1]
              rfl
      · injection h with h
        subst h
        rw [afterPop_trace] at hf
        simp only [afterCheck_trace, List.append_assoc, List.drop_left] at hf
        have hn := flushTail_not_mem_specCalls P (polledTrigger P (afterCheck s))
          (P.connId (polledTrigger P (afterCheck s))) false
        split at hf <;> simp at hf <;> exact absurd hf hn

theorem polledTrigger_emptyFifo (P : ProxyParams) (size : Nat)
    (run : mscclppProxyRunState_t) (ib : Bool) :
    polledTrigger P (freshState (emptyFifo size) run ib) = zeroTrigger := by
  simp only [polledTrigger, freshState, emptyFifo, List.getD_eq_getElem?_getD,
    List.getElem?_replicate]
  split <;> rfl

theorem polledSlot_emptyFifo (P : ProxyParams) (size : Nat)
    (run : mscclppProxyRunState_t) (ib : Bool) :
    polledSlot P (freshState (emptyFifo size) run ib) = 0 := by
  simp [polledSlot, freshState, emptyFifo]

theorem polledSlot_mk_emptyFifo (P : ProxyParams) (size : Nat) (run : mscclppProxyRunState_t)
    (ib : Bool) (c : Int) (n : Nat) (tr : List Event) :
    polledSlot P (ServiceState.mk (emptyFifo size) run ib c n tr) = 0 := by
  simp [polledSlot, emptyFifo]

theorem serviceIter_check_running (P : ProxyParams) (env : ProxyEnv) (s : ServiceState)
    (hz : (polledTrigger P s).value0 = 0) (hc : s.runCnt = 0)
    (hr : s.run = mscclppProxyRunState_t.MSCCLPP_PROXY_RUN_STATE_RUNNING) :
    serviceIter P env s = Outcome.next { s with
      runCnt := MSCCLPP_PROXY_RUN_STATE_CHECK_PERIOD
      trace := s.trace ++ [Event.readRun s.run, Event.poll (polledSlot P s)] } := by
  have hz1 : (polledTrigger P (afterCheck s)).value0 = 0 := by
    rw [polledTrigger_afterCheck]; exact hz
  rw [serviceIter_eq, if_neg (fun h => h.2 hr), serviceBody_empty P env _ hz1,
    polledSlot_afterCheck]
  simp [afterCheck, hc]

/-- From a state that has just reloaded `runCnt`, with `run = Running` and an empty
polled slot, 101 iterations poll 101 times and read `run` once, in the last of them. -/
theorem spin_period (P : ProxyParams) (env : ProxyEnv) (s : ServiceState)
    (hz : (polledTrigger P s).value0 = 0)
    (hc : s.runCnt = MSCCLPP_PROXY_RUN_STATE_CHECK_PERIOD)
    (hr : s.run = mscclppProxyRunState_t.MSCCLPP_PROXY_RUN_STATE_RUNNING) :
    serviceLoop P env (List.replicate 100 EnvAction.idle ++ [EnvAction.idle]) s
      = Outcome.next { s with
          trace := s.trace ++ List.replicate 100 (Event.poll (polledSlot P s))
            ++ [Event.readRun s.run, Event.poll (polledSlot P s)] } := by
  rw [serviceLoop_append, spin P env 100 s hz (by rw [hc]; decide)]
  simp only []
  rw [serviceLoop_cons_idle,
    serviceIter_check_running P env (spun P s 100) hz (by simp [spun, hc]; decide) hr]
  simp only [serviceLoop]
  congr 1
  simp [spun, polledSlot, hc]

theorem serviceFrom_brk (P : ProxyParams) (env : ProxyEnv) (sched : List EnvAction)
    (s s1 : ServiceState) (h : serviceLoop P env sched s = Outcome.brk s1) :
    serviceFrom P env sched s = serviceExit P env s1 := by
  unfold serviceFrom; rw [h]

/-- The loop drains `trigs`, spins on the empty slot that follows until `runCnt`
reaches zero, and breaks on the read of a `run` that is not `Running`. -/
theorem drain_then_break (P : ProxyParams) (env : ProxyEnv) (trigs : List mscclppTrigger)
    (s : ServiceState) (c : Nat) (extra : List EnvAction)
    (hN : 0 < P.MSCCLPP_PROXY_FIFO_SIZE)
    (hlen : s.fifo.triggerFifo.length = P.MSCCLPP_PROXY_FIFO_SIZE)
    (hh : s.fifo.fifoTailHost < U64)
    (hc : s.runCnt = c) (hm : trigs.length ≤ c)
    (hn : trigs.length ≤ P.MSCCLPP_PROXY_FIFO_SIZE)
    (hw : s.fifo.fifoTailHost + trigs.length ≤ U64 ∨ P.MSCCLPP_PROXY_FIFO_SIZE ∣ U64)
    (hpend : Pending P s trigs)
    (hnz : ∀ t ∈ trigs, t.value0 ≠ 0)
    (hempty : ∀ j, j < P.MSCCLPP_PROXY_FIFO_SIZE →
      (∀ i, i < trigs.length → j ≠ slotOf P s.fifo.fifoTailHost i) →
      (s.fifo.triggerFifo.getD j zeroTrigger).value0 = 0)
    (hrun : s.run ≠ mscclppProxyRunState_t.MSCCLPP_PROXY_RUN_STATE_RUNNING)
    (hcuda : FlushOk P env) :
    ∃ s1 s2, Drained P trigs s s1
      ∧ serviceLoop P env (List.replicate (c + 1) EnvAction.idle ++ extra) s = Outcome.brk s2
      ∧ s2.fifo = s1.fifo ∧ s2.run = s.run ∧ s2.ibContext = s.ibContext
      ∧ dispatched s2.trace = dispatched s1.trace
      ∧ transportCalls s2.trace = transportCalls s1.trace := by
  obtain ⟨s1, h1, hd⟩ := drain P env hN hcuda trigs s hlen hh hpend
    (fun i j hij hj => slotOf_ne P _ _ i j hn hw hij hj) hnz
    (Or.inr (by rw [hc]; exact_mod_cast hm))
  have hd' := hd
  obtain ⟨-, -, htail, hrun1, hib1, hcnt, hlen1, hkeep, hzero⟩ := hd
  have hcnt1 : s1.runCnt = ((c - trigs.length : Nat) : Int) := by
    rw [hcnt (by rw [hc]; exact_mod_cast hm), hc]
    omega
  have hz : (polledTrigger P s1).value0 = 0 := by
    unfold polledTrigger
    rw [htail]
    by_cases hex : ∃ i, i < trigs.length ∧
        (s.fifo.fifoTailHost + trigs.length) % U64 % P.MSCCLPP_PROXY_FIFO_SIZE
          = slotOf P s.fifo.fifoTailHost i
    · obtain ⟨i, hi, heq⟩ := hex
      rw [heq]
      exact hzero i hi
    · rw [hkeep _ (fun i hi heq => hex ⟨i, hi, heq⟩)]
      exact hempty _ (Nat.mod_lt _ hN) (fun i hi heq => hex ⟨i, hi, heq⟩)
  have hsplit : List.replicate (c + 1) EnvAction.idle ++ extra
      = List.replicate trigs.length EnvAction.idle
        ++ (List.replicate (c - trigs.length) EnvAction.idle ++ EnvAction.idle :: extra) := by
    have h0 : c + 1 = trigs.length + ((c - trigs.length) + 1) := by omega
    rw [h0, List.replicate_add, List.replicate_succ']
    simp
  refine ⟨s1, { s1 with
      runCnt := MSCCLPP_PROXY_RUN_STATE_CHECK_PERIOD
      trace := s1.trace ++ List.replicate (c - trigs.length) (Event.poll (polledSlot P s1))
        ++ [Event.readRun s1.run] }, hd', ?_, ?_⟩
  · rw [hsplit, serviceLoop_append, h1]
    simp only []
    rw [spin_then_break P env (c - trigs.length) s1 extra hz hcnt1 (by rw [hrun1]; exact hrun)]
  · refine ⟨rfl, hrun1, hib1, ?_, ?_⟩
    · simp [dispatched]
    · simp [transportCalls]

theorem sum_take_drop_succ (L : List Nat) (a n : Nat) (h : a + n < L.length) :
    ((L.drop a).take (n + 1)).sum = ((L.drop a).take n).sum + L.getD (a + n) 0 := by
  rw [List.take_succ, List.sum_append, List.getElem?_drop]
  simp [List.getD_eq_getElem?_getD, List.getElem?_eq_getElem h]

/-- Over a window of dispatches without the Sync bit, the in-loop flushes are the
multiples of the flush period. -/
theorem flushExpected_window (P : ProxyParams) (ds : List (Nat × mscclppTrigger))
    (hlt : ds.length < U64) (a : Nat) :
    ∀ n, a + n ≤ ds.length →
      (∀ i, a ≤ i → i < a + n →
        P.type (ds.getD i (0, zeroTrigger)).2 &&& P.mscclppSync = 0) →
      (((flushExpected P 0 ds).drop a).take n).sum
        = (a + n) / P.MSCCLPP_PROXY_FIFO_FLUSH_COUNTER - a / P.MSCCLPP_PROXY_FIFO_FLUSH_COUNTER := by
  intro n
  induction n with
  | zero => intro _ _; simp
  | succ n ih =>
    intro hle hns
    have h1 : a + n < (flushExpected P 0 ds).length := by
      rw [flushExpected_length]; omega
    rw [sum_take_drop_succ _ a n h1, ih (by omega) (fun i hi1 hi2 => hns i hi1 (by omega)),
      flushExpected_getD P ds 0 (a + n) (by omega)]
    have hmod : (0 + (a + n) + 1) % U64 = a + n + 1 := by
      rw [Nat.zero_add]; exact Nat.mod_eq_of_lt (by omega)
    have hdiv := Nat.succ_div (a + n) P.MSCCLPP_PROXY_FIFO_FLUSH_COUNTER
    have hmono : a / P.MSCCLPP_PROXY_FIFO_FLUSH_COUNTER
        ≤ (a + n) / P.MSCCLPP_PROXY_FIFO_FLUSH_COUNTER :=
      Nat.div_le_div_right (by omega)
    have hsync := hns (a + n) (by omega) (by omega)
    rw [hmod]
    unfold flushDue
    rw [show a + (n + 1) = a + n + 1 from rfl, hdiv]
    by_cases hd : P.MSCCLPP_PROXY_FIFO_FLUSH_COUNTER ∣ a + n + 1
    · have : (a + n + 1) % P.MSCCLPP_PROXY_FIFO_FLUSH_COUNTER = 0 := Nat.mod_eq_zero_of_dvd hd
      simp only [this, hsync, hd, if_true, true_or]
      omega
    · have : (a + n + 1) % P.MSCCLPP_PROXY_FIFO_FLUSH_COUNTER ≠ 0 :=
        fun h => hd (Nat.dvd_of_mod_eq_zero h)
      simp only [this, hsync, hd, if_false, false_or, ne_eq, not_true_eq_false]
      omega

theorem serviceIter_hostConn (P : ProxyParams) (env : ProxyEnv)
    (hc : Nat → HostCall → mscclppResult_t) (s : ServiceState) :
    serviceIter P { env with hostConn := hc } s = serviceIter P env s := rfl

theorem serviceLoop_hostConn (P : ProxyParams) (env : ProxyEnv)
    (hc : Nat → HostCall → mscclppResult_t) (sched : List EnvAction) :
    ∀ s, serviceLoop P { env with hostConn := hc } sched s = serviceLoop P env sched s := by
  induction sched with
  | nil => intro s; rfl
  | cons a rest ih =>
    intro s
    simp only [serviceLoop, serviceIter_hostConn]
    cases serviceIter P env (applyEnv a s) with
    | next s1 => exact ih s1
    | brk s1 => rfl
    | ret s1 => rfl

theorem mscclppProxyService_hostConn (P : ProxyParams) (env : ProxyEnv)
    (hc : Nat → HostCall → mscclppResult_t) (sched : List EnvAction)
    (fifo : mscclppProxyFifo) (run : mscclppProxyRunState_t) (ib : Bool) :
    mscclppProxyService P { env with hostConn := hc } sched fifo run ib
      = mscclppProxyService P env sched fifo run ib := by
  unfold mscclppProxyService serviceFrom
  rw [serviceLoop_hostConn]
  rfl

theorem mem_specCalls (P : ProxyParams) (t : mscclppTrigger) (c : Nat) (e : Event)
    (h : e ∈ specCalls P t c) : ∃ call, e = Event.transport c call := by
  unfold specCalls at h
  simp only [List.mem_append] at h
  rcases h with (h | h) | h <;> split at h <;> simp at h <;> exact ⟨_, h⟩

theorem serviceIter_noStore (P : ProxyParams) (env : ProxyEnv) (s : ServiceState)
    (h : ∀ e ∈ s.trace, e.noStore) : ∀ e ∈ (serviceIter P env s).state.trace, e.noStore := by
  have hac : ∀ e ∈ (afterCheck s).trace, e.noStore := by
    intro e he
    rw [afterCheck_trace] at he
    rcases List.mem_append.1 he with h1 | h1
    · exact h e h1
    · split at h1 <;> simp at h1
      subst h1; trivial
  have hsc : ∀ e ∈ specCalls P (polledTrigger P (afterCheck s))
      (P.connId (polledTrigger P (afterCheck s))), e.noStore := by
    intro e he
    obtain ⟨call, rfl⟩ := mem_specCalls P _ _ e he
    trivial
  have hap : ∀ e ∈ (afterPop P (afterCheck s)).trace, e.noStore := by
    intro e he
    rw [afterPop_trace] at he
    simp only [List.mem_append, List.mem_cons, List.mem_singleton, List.not_mem_nil,
      or_false] at he
    rcases he with (h1 | h1) | h1 | h1 | h1
    · exact hac e h1
    · subst h1; trivial
    · subst h1; trivial
    · exact hsc e h1
    · subst h1; trivial
  have haf : ∀ e ∈ (afterFlush P env (afterCheck s)).trace, e.noStore := by
    intro e he
    have ht : (afterFlush P env (afterCheck s)).trace
        = (afterPop P (afterCheck s)).trace ++ [Event.flushTail false] := rfl
    rw [ht] at he
    rcases List.mem_append.1 he with h1 | h1
    · exact hap e h1
    · simp at h1; subst h1; trivial
  rw [serviceIter_eq]
  split
  · exact hac
  · by_cases hz : (polledTrigger P (afterCheck s)).value0 = 0
    · rw [serviceBody_empty P env _ hz]
      intro e he
      simp only [Outcome.state] at he
      rcases List.mem_append.1 he with h1 | h1
      · exact hac e h1
      · simp at h1; subst h1; trivial
    · rw [serviceBody_dispatch P env _ hz]
      split
      · split <;> exact haf
      · exact hap

theorem serviceLoop_noStore (P : ProxyParams) (env : ProxyEnv) (sched : List EnvAction) :
    ∀ s : ServiceState, (∀ e ∈ s.trace, e.noStore) →
      ∀ e ∈ (serviceLoop P env sched s).state.trace, e.noStore := by
  induction sched with
  | nil => intro s h; exact h
  | cons a rest ih =>
    intro s h
    have hi := serviceIter_noStore P env (applyEnv a s) h
    unfold serviceLoop
    split
    · rename_i s1 heq
      rw [heq] at hi
      exact ih s1 hi
    · exact hi

theorem serviceExit_early (P : ProxyParams) (env : ProxyEnv) (s s1 : ServiceState)
    (h : serviceExit P env s = ServiceResult.returnedEarly s1) :
    s1.trace = s.trace ++ [Event.flushTail true]
      ∨ s1.trace = s.trace ++ [Event.flushTail true] ++ [Event.p2pStreamSynchronize] := by
  unfold serviceExit at h
  simp only [] at h
  by_cases h1 : proxyCheckFails (s.fifo.flushTail P env true).1 = true
  · rw [if_pos h1] at h
    injection h with h
    subst h
    exact Or.inl rfl
  · rw [if_neg h1] at h
    by_cases h2 : (!s.ibContext) = true
    · rw [if_pos h2] at h
      by_cases h3 : env.p2pStreamSynchronize = false
      · rw [if_pos h3] at h
        injection h with h
        subst h
        exact Or.inr rfl
      · rw [if_neg h3] at h
        exact absurd h (by simp)
    · rw [if_neg h2] at h
      exact absurd h (by simp)

theorem mscclppProxyService_early_noStore (P : ProxyParams) (env : ProxyEnv)
    (sched : List EnvAction) (fifo : mscclppProxyFifo) (run : mscclppProxyRunState_t)
    (ib : Bool) (s1 : ServiceState)
    (h : mscclppProxyService P env sched fifo run ib = ServiceResult.returnedEarly s1) :
    ∀ v, Event.storeRun v ∉ s1.trace := by
  have key : ∀ e ∈ s1.trace, e.noStore := by
    unfold mscclppProxyService at h
    split at h
    · injection h with h
      subst h
      intro e he
      simp [freshState] at he
    · have hl := serviceLoop_noStore P env sched (freshState fifo run ib)
        (by intro e he; simp [freshState] at he)
      unfold serviceFrom at h
      split at h
      · exact absurd h (by simp)
      · rename_i s2 heq
        rw [heq] at hl
        simp only [Outcome.state] at hl
        intro e he
        rcases serviceExit_early P env s2 s1 h with ht | ht
        · rw [ht] at he
          rcases List.mem_append.1 he with h1 | h1
          · exact hl e h1
          · simp at h1; subst h1; trivial
        · rw [ht] at he
          simp only [List.mem_append, List.mem_singleton] at he
          rcases he with (h1 | h1) | h1
          · exact hl e h1
          · subst h1; trivial
          · subst h1; trivial
      · rename_i s2 heq
        rw [heq] at hl
        injection h with h
        subst h
        exact hl
  intro v hv
  exact key _ hv

/-! ## The claims -/

/-- C1: let `n ≤ MSCCLPP_PROXY_FIFO_SIZE` triggers with non-zero low 64 bits sit in the
consecutive slots that the host tail visits next (the window not crossing the wrap of
the 64-bit tail, or the ring depth dividing `2 ^ 64`), and let `run` be `Running`
with no interference. Then whenever the loop runs `n` iterations, these have
processed exactly these triggers, once each and in submission order, each on the
connection `connId` of the trigger, have issued exactly their transport calls and
nothing else, have advanced the host tail by `n` and have left the `n` slots empty.
And the loop does run the `n` iterations unless an in-loop `flushTail()` fails (a CUDA
error, on which the function returns). -/
theorem fifo_order (P : ProxyParams) (env : ProxyEnv) (trigs : List mscclppTrigger)
    (s : ServiceState)
    (hN : 0 < P.MSCCLPP_PROXY_FIFO_SIZE)
    (hlen : s.fifo.triggerFifo.length = P.MSCCLPP_PROXY_FIFO_SIZE)
    (hh : s.fifo.fifoTailHost < U64)
    (hn : trigs.length ≤ P.MSCCLPP_PROXY_FIFO_SIZE)
    (hw : s.fifo.fifoTailHost + trigs.length ≤ U64 ∨ P.MSCCLPP_PROXY_FIFO_SIZE ∣ U64)
    (hpend : ∀ i, i < trigs.length →
      s.fifo.triggerFifo.getD ((s.fifo.fifoTailHost + i) % U64 % P.MSCCLPP_PROXY_FIFO_SIZE)
        zeroTrigger = trigs.getD i zeroTrigger)
    (hnz : ∀ t ∈ trigs, t.value0 ≠ 0)
    (hrun : s.run = mscclppProxyRunState_t.MSCCLPP_PROXY_RUN_STATE_RUNNING) :
    (∀ s1, serviceLoop P env (List.replicate trigs.length EnvAction.idle) s = Outcome.next s1 →
      dispatched s1.trace = dispatched s.trace ++ trigs.map (fun t => (P.connId t, t))
      ∧ transportCalls s1.trace = transportCalls s.trace ++ callsFor P trigs
      ∧ s1.fifo.fifoTailHost = (s.fifo.fifoTailHost + trigs.length) % U64
      ∧ ∀ i, i < trigs.length →
          (s1.fifo.triggerFifo.getD
            ((s.fifo.fifoTailHost + i) % U64 % P.MSCCLPP_PROXY_FIFO_SIZE) zeroTrigger).value0
            = 0)
    ∧ (FlushOk P env →
        ∃ s1, serviceLoop P env (List.replicate trigs.length EnvAction.idle) s
          = Outcome.next s1) := by
  have hdist : ∀ i j, i < j → j < trigs.length →
      slotOf P s.fifo.fifoTailHost i ≠ slotOf P s.fifo.fifoTailHost j :=
    fun i j hij hj => slotOf_ne P _ _ i j hn hw hij hj
  constructor
  · intro s1 h1
    have h2 := drain_next P env hN trigs s hlen hh hpend hdist hnz (Or.inl hrun) s1 h1
    exact ⟨h2.1, h2.2.1, h2.2.2.1, h2.2.2.2.2.2.2.2.2⟩
  · intro hcuda
    obtain ⟨s1, h1, -⟩ := drain P env hN hcuda trigs s hlen hh hpend hdist hnz (Or.inl hrun)
    exact ⟨s1, h1⟩

/-- Three triggers in the slots 2, 3, 0 of a ring of four with the tail at 2 are
processed in this order. -/
theorem fifo_order_witness :
    ∃ s1, serviceLoop (sampleParams 4 4 true) okEnv (List.replicate 3 EnvAction.idle)
        (freshState
          (mscclppProxyFifo.mk [sampleTrigger 2 7 0 0 0, zeroTrigger,
            sampleTrigger 1 5 1 2 3, sampleTrigger 4 6 0 0 0] 2 2 [])
          mscclppProxyRunState_t.MSCCLPP_PROXY_RUN_STATE_RUNNING false) = Outcome.next s1
      ∧ dispatched s1.trace
          = [(5, sampleTrigger 1 5 1 2 3), (6, sampleTrigger 4 6 0 0 0),
             (7, sampleTrigger 2 7 0 0 0)]
      ∧ transportCalls s1.trace
          = [(5, HostCall.put 2 1 3), (6, HostCall.flush), (7, HostCall.signal)] := by
  have h := fifo_order (sampleParams 4 4 true) okEnv
    [sampleTrigger 1 5 1 2 3, sampleTrigger 4 6 0 0 0, sampleTrigger 2 7 0 0 0]
    (freshState
      (mscclppProxyFifo.mk [sampleTrigger 2 7 0 0 0, zeroTrigger,
        sampleTrigger 1 5 1 2 3, sampleTrigger 4 6 0 0 0] 2 2 [])
      mscclppProxyRunState_t.MSCCLPP_PROXY_RUN_STATE_RUNNING false)
    (by decide) (by decide) (by decide) (by decide) (Or.inl (by decide)) (by decide)
    (by decide) rfl
  obtain ⟨s1, h1⟩ := h.2 (Or.inl rfl)
  obtain ⟨h2, h3, -, -⟩ := h.1 s1 h1
  exact ⟨s1, h1, h2, h3⟩

/-- C2: for every trigger and connection, `processTrigger` issues on the connection's
host transport exactly `put(dstDataOffset, srcDataOffset, dataSize)` if the Data
bit of the type is set, then `signal()` if the Flag bit is set, then `flush()` if
the Sync bit is set, and nothing else. With the three (non-zero) bits set this is one
put, one signal, one flush in this order; for a trigger of type Data alone (the Data
mask sharing no bit with the two others) with `src = 0x100`, `dst = 0x200`,
`size = 4096` it is `put(0x200, 0x100, 4096)` alone, without a flush. -/
theorem processTrigger_call_sequence (P : ProxyParams) (env : ProxyEnv) (t : mscclppTrigger)
    (conn : Nat) (tr : List Event) :
    processTrigger P env t conn tr
        = tr
          ++ (if P.type t &&& P.mscclppData ≠ 0 then
                [Event.transport conn
                  (HostCall.put (P.dstDataOffset t) (P.srcDataOffset t) (P.dataSize t))]
              else [])
          ++ (if P.type t &&& P.mscclppFlag ≠ 0 then [Event.transport conn HostCall.signal]
              else [])
          ++ (if P.type t &&& P.mscclppSync ≠ 0 then [Event.transport conn HostCall.flush]
              else [])
    ∧ (P.mscclppData ≠ 0 → P.mscclppFlag ≠ 0 → P.mscclppSync ≠ 0 →
        P.type t = P.mscclppData ||| P.mscclppFlag ||| P.mscclppSync →
        processTrigger P env t conn tr
          = tr ++ [Event.transport conn
                    (HostCall.put (P.dstDataOffset t) (P.srcDataOffset t) (P.dataSize t)),
                   Event.transport conn HostCall.signal,
                   Event.transport conn HostCall.flush])
    ∧ (P.mscclppData ≠ 0 → P.mscclppData &&& P.mscclppFlag = 0 →
        P.mscclppData &&& P.mscclppSync = 0 → P.type t = P.mscclppData →
        P.srcDataOffset t = 0x100 → P.dstDataOffset t = 0x200 → P.dataSize t = 4096 →
        processTrigger P env t conn tr
          = tr ++ [Event.transport conn (HostCall.put 0x200 0x100 4096)]) := by
  refine ⟨?_, ?_, ?_⟩
  · rw [processTrigger_eq, specCalls, List.append_assoc, List.append_assoc]
    simp
  · intro hd hf hs ht
    rw [processTrigger_eq, specCalls, ht, or3_and_left, or3_and_mid, or3_and_right,
      if_pos hd, if_pos hf, if_pos hs]
    simp
  · intro hd hdf hds ht hsrc hdst hsize
    rw [processTrigger_eq, specCalls, ht, Nat.and_self, hdf, hds, if_pos hd, hsrc, hdst, hsize]
    simp

/-- A data trigger of the sample layout yields the single call `put(0x200, 0x100, 4096)`. -/
theorem processTrigger_call_sequence_witness :
    processTrigger (sampleParams 16 4 true) okEnv (sampleTrigger 1 0 0x100 0x200 4096) 0 []
        = [] ++ [Event.transport 0 (HostCall.put 0x200 0x100 4096)]
    ∧ processTrigger (sampleParams 16 4 true) okEnv (sampleTrigger 7 3 8 16 64) 3 []
        = [] ++ [Event.transport 3 (HostCall.put 16 8 64), Event.transport 3 HostCall.signal,
            Event.transport 3 HostCall.flush] :=
  ⟨(processTrigger_call_sequence (sampleParams 16 4 true) okEnv
      (sampleTrigger 1 0 0x100 0x200 4096) 0 []).2.2
      (by decide) (by decide) (by decide) (by decide) (by decide) (by decide) (by decide),
   (processTrigger_call_sequence (sampleParams 16 4 true) okEnv
      (sampleTrigger 7 3 8 16 64) 3 []).2.1
      (by decide) (by decide) (by decide) (by decide)⟩

set_option maxRecDepth 100000 in
/-- C3, the claim as stated fails: in the build without GDRCopy a single Data|Sync
trigger on connection 1 gives one put, one flush and the in-loop `flushTail()`, but
this only enqueues the copy of the host tail on the stream: at the end of the
iteration the host tail is 1 and the device tail is still 0, and it is still 0 after
the next iteration when the stream has not carried the copy out in between. -/
theorem flush_cadence_counterexample :
    (∃ s1, serviceIter (sampleParams 16 4 false) okEnv
          (applyEnv (EnvAction.mk (producerWrites 16 0 [sampleTrigger 5 1 0x100 0x200 4096])
              none 0)
            (freshState (emptyFifo 16)
              mscclppProxyRunState_t.MSCCLPP_PROXY_RUN_STATE_RUNNING false))
          = Outcome.next s1
        ∧ transportCalls s1.trace = [(1, HostCall.put 0x200 0x100 4096), (1, HostCall.flush)]
        ∧ s1.trace.getLast? = some (Event.flushTail false)
        ∧ s1.fifo.fifoTailHost = 1 ∧ s1.fifo.fifoTailDev = 0 ∧ s1.fifo.stream = [1])
    ∧ (∃ s2, serviceLoop (sampleParams 16 4 false) okEnv
          [EnvAction.mk (producerWrites 16 0 [sampleTrigger 5 1 0x100 0x200 4096]) none 0,
           EnvAction.idle]
          (freshState (emptyFifo 16)
            mscclppProxyRunState_t.MSCCLPP_PROXY_RUN_STATE_RUNNING false)
          = Outcome.next s2
        ∧ s2.fifo.fifoTailHost = 1 ∧ s2.fifo.fifoTailDev = 0) :=
  ⟨⟨_, rfl, by decide⟩, ⟨_, rfl, by decide⟩⟩

/-- C3 as amended: for every flush period `k ≥ 1` and every run of a freshly started
loop (whatever the other agents do between the iterations, fewer than `2 ^ 64`
dispatches), the in-loop `flushTail()` is called after the `i`-th dispatch (`i`
counted from 1), before the next one, exactly when `i % k = 0` or the `i`-th
trigger has the Sync bit set, and then once. An iteration that called it and goes on
called it last; with GDRCopy it leaves the device tail equal to the host tail;
without GDRCopy it leaves the device tail as it was and the host tail as the newest
copy enqueued on the stream, so that the device tail equals the host tail once the
stream has carried out its copies. With `k = 4` and ten triggers without the Sync
bit, `flushTail()` follows the 4th and the 8th dispatch only; with GDRCopy a single
Data|Sync trigger on connection 1 gives one put, one flush and the device tail 1 at
the end of its iteration. -/
theorem flush_cadence (P : ProxyParams) (env : ProxyEnv)
    (_hk : 1 ≤ P.MSCCLPP_PROXY_FIFO_FLUSH_COUNTER) :
    (∀ (sched : List EnvAction) (fifo : mscclppProxyFifo) (run : mscclppProxyRunState_t)
        (ib : Bool),
      (dispatched (loopTrace P env sched fifo run ib)).length < U64 →
      (flushPerDispatch (loopTrace P env sched fifo run ib)).length
          = (dispatched (loopTrace P env sched fifo run ib)).length
      ∧ ∀ i, i < (dispatched (loopTrace P env sched fifo run ib)).length →
          (flushPerDispatch (loopTrace P env sched fifo run ib)).getD i 0 ≤ 1
          ∧ ((flushPerDispatch (loopTrace P env sched fifo run ib)).getD i 0 = 1 ↔
              ((i + 1) % P.MSCCLPP_PROXY_FIFO_FLUSH_COUNTER = 0
                ∨ P.type ((dispatched (loopTrace P env sched fifo run ib)).getD i
                    (0, zeroTrigger)).2 &&& P.mscclppSync ≠ 0)))
    ∧ (∀ s s1 : ServiceState, serviceIter P env s = Outcome.next s1 →
        Event.flushTail false ∈ s1.trace.drop s.trace.length →
        s1.trace.getLast? = some (Event.flushTail false)
          ∧ (P.MSCCLPP_USE_GDRCOPY = true → s1.fifo.fifoTailDev = s1.fifo.fifoTailHost)
          ∧ (P.MSCCLPP_USE_GDRCOPY = false →
              s1.fifo.fifoTailDev = s.fifo.fifoTailDev
              ∧ s1.fifo.stream = s.fifo.stream ++ [s1.fifo.fifoTailHost]
              ∧ (streamRun s1.fifo.stream.length s1.fifo).fifoTailDev
                  = s1.fifo.fifoTailHost))
    ∧ flushPerDispatch (loopTrace (sampleParams 16 4 false) okEnv
          (EnvAction.mk (producerWrites 16 0
              (List.replicate 10 (sampleTrigger 1 0 0x100 0x200 4096))) none 0
            :: List.replicate 9 EnvAction.idle)
          (emptyFifo 16) mscclppProxyRunState_t.MSCCLPP_PROXY_RUN_STATE_RUNNING false)
        = [0, 0, 0, 1, 0, 0, 0, 1, 0, 0]
    ∧ (∃ s1, serviceIter (sampleParams 16 4 true) okEnv
          (applyEnv (EnvAction.mk (producerWrites 16 0 [sampleTrigger 5 1 0x100 0x200 4096])
              none 0)
            (freshState (emptyFifo 16)
              mscclppProxyRunState_t.MSCCLPP_PROXY_RUN_STATE_RUNNING false))
          = Outcome.next s1
        ∧ transportCalls s1.trace = [(1, HostCall.put 0x200 0x100 4096), (1, HostCall.flush)]
        ∧ s1.fifo.fifoTailHost = 1 ∧ s1.fifo.fifoTailDev = 1) := by
  refine ⟨?_, serviceIter_flush_publishes P env, by decide, ⟨_, rfl, by decide⟩⟩
  intro sched fifo run ib hlt
  have hinv := cadenceInv_serviceLoop P env sched _ (cadenceInv_fresh P fifo run ib)
  have hfe : flushPerDispatch (loopTrace P env sched fifo run ib)
      = flushExpected P 0 (dispatched (loopTrace P env sched fifo run ib)) := hinv.2
  rw [hfe]
  refine ⟨flushExpected_length P 0 _, ?_⟩
  intro i hi
  rw [flushExpected_getD P _ 0 i hi]
  have hmod : (0 + i + 1) % U64 = i + 1 := by
    rw [Nat.zero_add]
    exact Nat.mod_eq_of_lt (by omega)
  rw [hmod]
  unfold flushDue
  split <;> simp_all

/-- The cadence on a concrete run without GDRCopy: period 2, three triggers of which
the first has the Sync bit: `flushTail()` follows the first and the second dispatch;
and the iteration of the first trigger leaves the device tail at 0 with the host
tail 1 enqueued on the stream. -/
theorem flush_cadence_witness :
    1 ≤ (sampleParams 8 2 false).MSCCLPP_PROXY_FIFO_FLUSH_COUNTER
    ∧ (dispatched (loopTrace (sampleParams 8 2 false) okEnv
          (EnvAction.mk (producerWrites 8 0
              [sampleTrigger 5 0 0 0 8, sampleTrigger 1 0 0 0 8, sampleTrigger 1 0 0 0 8]) none 0
            :: List.replicate 2 EnvAction.idle)
          (emptyFifo 8) mscclppProxyRunState_t.MSCCLPP_PROXY_RUN_STATE_RUNNING false)).length
        < U64
    ∧ (flushPerDispatch (loopTrace (sampleParams 8 2 false) okEnv
          (EnvAction.mk (producerWrites 8 0
              [sampleTrigger 5 0 0 0 8, sampleTrigger 1 0 0 0 8, sampleTrigger 1 0 0 0 8]) none 0
            :: List.replicate 2 EnvAction.idle)
          (emptyFifo 8) mscclppProxyRunState_t.MSCCLPP_PROXY_RUN_STATE_RUNNING false)).length
        = (dispatched (loopTrace (sampleParams 8 2 false) okEnv
          (EnvAction.mk (producerWrites 8 0
              [sampleTrigger 5 0 0 0 8, sampleTrigger 1 0 0 0 8, sampleTrigger 1 0 0 0 8]) none 0
            :: List.replicate 2 EnvAction.idle)
          (emptyFifo 8) mscclppProxyRunState_t.MSCCLPP_PROXY_RUN_STATE_RUNNING false)).length
    ∧ (serviceIter (sampleParams 8 2 false) okEnv
          (freshState (mscclppProxyFifo.mk [sampleTrigger 5 0 0 0 8] 0 0 [])
            mscclppProxyRunState_t.MSCCLPP_PROXY_RUN_STATE_RUNNING false)).state.fifo.stream
        = (freshState (mscclppProxyFifo.mk [sampleTrigger 5 0 0 0 8] 0 0 [])
            mscclppProxyRunState_t.MSCCLPP_PROXY_RUN_STATE_RUNNING false).fifo.stream
          ++ [(serviceIter (sampleParams 8 2 false) okEnv
                (freshState (mscclppProxyFifo.mk [sampleTrigger 5 0 0 0 8] 0 0 [])
                  mscclppProxyRunState_t.MSCCLPP_PROXY_RUN_STATE_RUNNING false)
              ).state.fifo.fifoTailHost] :=
  ⟨by decide, by decide,
   ((flush_cadence (sampleParams 8 2 false) okEnv (by decide)).1
      (EnvAction.mk (producerWrites 8 0
          [sampleTrigger 5 0 0 0 8, sampleTrigger 1 0 0 0 8, sampleTrigger 1 0 0 0 8]) none 0
        :: List.replicate 2 EnvAction.idle)
      (emptyFifo 8) mscclppProxyRunState_t.MSCCLPP_PROXY_RUN_STATE_RUNNING false
      (by decide)).1,
   (((flush_cadence (sampleParams 8 2 false) okEnv (by decide)).2.1
      (freshState (mscclppProxyFifo.mk [sampleTrigger 5 0 0 0 8] 0 0 [])
        mscclppProxyRunState_t.MSCCLPP_PROXY_RUN_STATE_RUNNING false)
      (serviceIter (sampleParams 8 2 false) okEnv
        (freshState (mscclppProxyFifo.mk [sampleTrigger 5 0 0 0 8] 0 0 [])
          mscclppProxyRunState_t.MSCCLPP_PROXY_RUN_STATE_RUNNING false)).state
      (by decide) (by decide)).2.2 (by decide)).2.1⟩

set_option maxRecDepth 1000000 in
/-- C4, the claim as stated fails: a fresh proxy spins on an empty ring for 99
iterations; then three triggers are submitted and `run` is set to `Exiting`. The
100th iteration processes the first trigger, the 101st reads `run` and breaks: the
service function stores `Idle` and returns with one trigger processed, both tails at
1 (not 3), and the two other triggers still in their slots. -/
theorem graceful_shutdown_counterexample :
    ∃ s1, mscclppProxyService (sampleParams 8 4 true) okEnv
        (List.replicate 99 EnvAction.idle
          ++ EnvAction.mk (producerWrites 8 0
                [sampleTrigger 1 0 1 2 3, sampleTrigger 1 0 4 5 6, sampleTrigger 1 0 7 8 9])
              (some mscclppProxyRunState_t.MSCCLPP_PROXY_RUN_STATE_EXITING) 0
            :: List.replicate 3 EnvAction.idle)
        (emptyFifo 8) mscclppProxyRunState_t.MSCCLPP_PROXY_RUN_STATE_RUNNING false
        = ServiceResult.finished s1
      ∧ s1.run = mscclppProxyRunState_t.MSCCLPP_PROXY_RUN_STATE_IDLE
      ∧ dispatched s1.trace = [(0, sampleTrigger 1 0 1 2 3)]
      ∧ s1.fifo.fifoTailHost = 1 ∧ s1.fifo.fifoTailDev = 1
      ∧ s1.fifo.triggerFifo.getD 1 zeroTrigger = sampleTrigger 1 0 4 5 6
      ∧ s1.fifo.triggerFifo.getD 2 zeroTrigger = sampleTrigger 1 0 7 8 9 :=
  ⟨_, rfl, by decide⟩

/-- C4 as amended: let `run` be not `Running` (`Exiting`) with no further interference,
let the check counter `runCnt` be `c` (100 on a fresh loop), and let `m ≤ c` triggers
with non-zero low 64 bits be the content of the ring, in the slots the host tail
visits next, the CUDA calls succeeding. Then the loop processes the `m` triggers in
order, breaks in its iteration `c + 1` (at most `RUN_STATE_CHECK_PERIOD + 1` on a
reachable state), and the service function does the synchronous `flushTail`, stores
`Idle` last and returns with `run = Idle` and device tail = host tail = the initial
tail plus `m`. -/
theorem graceful_shutdown (P : ProxyParams) (env : ProxyEnv) (trigs : List mscclppTrigger)
    (s : ServiceState) (c : Nat) (extra : List EnvAction)
    (hN : 0 < P.MSCCLPP_PROXY_FIFO_SIZE)
    (hlen : s.fifo.triggerFifo.length = P.MSCCLPP_PROXY_FIFO_SIZE)
    (hh : s.fifo.fifoTailHost < U64)
    (hc : s.runCnt = c) (hm : trigs.length ≤ c)
    (hn : trigs.length ≤ P.MSCCLPP_PROXY_FIFO_SIZE)
    (hw : s.fifo.fifoTailHost + trigs.length ≤ U64 ∨ P.MSCCLPP_PROXY_FIFO_SIZE ∣ U64)
    (hpend : ∀ i, i < trigs.length →
      s.fifo.triggerFifo.getD ((s.fifo.fifoTailHost + i) % U64 % P.MSCCLPP_PROXY_FIFO_SIZE)
        zeroTrigger = trigs.getD i zeroTrigger)
    (hnz : ∀ t ∈ trigs, t.value0 ≠ 0)
    (hempty : ∀ j, j < P.MSCCLPP_PROXY_FIFO_SIZE →
      (∀ i, i < trigs.length →
        j ≠ (s.fifo.fifoTailHost + i) % U64 % P.MSCCLPP_PROXY_FIFO_SIZE) →
      (s.fifo.triggerFifo.getD j zeroTrigger).value0 = 0)
    (hrun : s.run ≠ mscclppProxyRunState_t.MSCCLPP_PROXY_RUN_STATE_RUNNING)
    (hcuda : FlushOk P env) (hexit : ExitOk P env s.ibContext) :
    ∃ s1, serviceFrom P env (List.replicate (c + 1) EnvAction.idle ++ extra) s
        = ServiceResult.finished s1
      ∧ dispatched s1.trace = dispatched s.trace ++ trigs.map (fun t => (P.connId t, t))
      ∧ transportCalls s1.trace = transportCalls s.trace ++ callsFor P trigs
      ∧ s1.run = mscclppProxyRunState_t.MSCCLPP_PROXY_RUN_STATE_IDLE
      ∧ s1.fifo.fifoTailHost = (s.fifo.fifoTailHost + trigs.length) % U64
      ∧ s1.fifo.fifoTailDev = s1.fifo.fifoTailHost
      ∧ Event.flushTail true ∈ s1.trace
      ∧ s1.trace.getLast?
          = some (Event.storeRun mscclppProxyRunState_t.MSCCLPP_PROXY_RUN_STATE_IDLE) := by
  obtain ⟨s1, s2, hd, hloop, hfifo, -, hib, hdisp, hcalls⟩ :=
    drain_then_break P env trigs s c extra hN hlen hh hc hm hn hw hpend hnz hempty hrun hcuda
  rw [serviceFrom_brk P env _ s s2 hloop,
    serviceExit_ok P env s2 hcuda (by rw [hib]; exact hexit)]
  refine ⟨_, rfl, ?_, ?_, rfl, ?_, ?_, ?_, ?_⟩
  · simp only [dispatched_append]
    rw [hdisp, hd.1]
    split <;> simp [dispatched]
  · simp only [transportCalls_append]
    rw [hcalls, hd.2.1]
    split <;> simp [transportCalls]
  · show (syncFlushed P s2.fifo).fifoTailHost = _
    rw [syncFlushed_tailHost, hfifo, hd.2.2.1]
  · show (syncFlushed P s2.fifo).fifoTailDev = (syncFlushed P s2.fifo).fifoTailHost
    rw [syncFlushed_tailDev, syncFlushed_tailHost]
  · simp
  · rw [List.getLast?_concat]

/-- Three triggers submitted to a fresh proxy whose `run` is already `Exiting`: all
three are processed, then the proxy stores `Idle` with both tails at 3. -/
theorem graceful_shutdown_witness :
    ∃ s1, serviceFrom (sampleParams 8 4 false) okEnv
        (List.replicate (100 + 1) EnvAction.idle ++ [])
        (freshState
          (mscclppProxyFifo.mk
            ([sampleTrigger 1 0 1 2 3, sampleTrigger 1 0 4 5 6, sampleTrigger 5 1 7 8 9]
              ++ List.replicate 5 zeroTrigger) 0 0 [])
          mscclppProxyRunState_t.MSCCLPP_PROXY_RUN_STATE_EXITING false)
        = ServiceResult.finished s1
      ∧ dispatched s1.trace
          = [(0, sampleTrigger 1 0 1 2 3), (0, sampleTrigger 1 0 4 5 6),
             (1, sampleTrigger 5 1 7 8 9)]
      ∧ s1.run = mscclppProxyRunState_t.MSCCLPP_PROXY_RUN_STATE_IDLE
      ∧ s1.fifo.fifoTailHost = 3
      ∧ s1.fifo.fifoTailDev = s1.fifo.fifoTailHost := by
  obtain ⟨s1, h1, h2, -, h4, h5, h6, -, -⟩ := graceful_shutdown (sampleParams 8 4 false) okEnv
    [sampleTrigger 1 0 1 2 3, sampleTrigger 1 0 4 5 6, sampleTrigger 5 1 7 8 9]
    (freshState
      (mscclppProxyFifo.mk
        ([sampleTrigger 1 0 1 2 3, sampleTrigger 1 0 4 5 6, sampleTrigger 5 1 7 8 9]
          ++ List.replicate 5 zeroTrigger) 0 0 [])
      mscclppProxyRunState_t.MSCCLPP_PROXY_RUN_STATE_EXITING false)
    100 [] (by decide) (by decide) (by decide) rfl (by decide) (by decide)
    (Or.inl (by decide)) (by decide) (by decide) (by decide) (by decide)
    (Or.inr (fun _ => rfl)) ⟨Or.inr rfl, fun _ => rfl⟩
  exact ⟨s1, h1, h2, h4, h5, h6⟩

set_option maxRecDepth 1000000 in
/-- C5, the claim as stated fails: with a transport whose every operation reports a
failure (not in-progress), the iteration that processes a Data trigger calls `put`
and goes on to the next iteration; and a proxy whose `run` is `Exiting` processes
the trigger, breaks at its iteration 101 and stores `Idle`. -/
theorem transport_failure_counterexample :
    proxyCheckFails (failingTransportEnv.hostConn 0 (HostCall.put 0x200 0x100 4096)) = true
    ∧ (∃ s1, serviceIter (sampleParams 4 4 true) failingTransportEnv
          (freshState
            (mscclppProxyFifo.mk [sampleTrigger 1 0 0x100 0x200 4096, zeroTrigger, zeroTrigger,
              zeroTrigger] 0 0 [])
            mscclppProxyRunState_t.MSCCLPP_PROXY_RUN_STATE_RUNNING false) = Outcome.next s1
        ∧ transportCalls s1.trace = [(0, HostCall.put 0x200 0x100 4096)])
    ∧ (∃ s2, mscclppProxyService (sampleParams 4 4 true) failingTransportEnv
          (List.replicate 101 EnvAction.idle)
          (mscclppProxyFifo.mk [sampleTrigger 1 0 0x100 0x200 4096, zeroTrigger, zeroTrigger,
            zeroTrigger] 0 0 [])
          mscclppProxyRunState_t.MSCCLPP_PROXY_RUN_STATE_EXITING false
          = ServiceResult.finished s2
        ∧ transportCalls s2.trace = [(0, HostCall.put 0x200 0x100 4096)]
        ∧ s2.run = mscclppProxyRunState_t.MSCCLPP_PROXY_RUN_STATE_IDLE) :=
  ⟨by decide, ⟨_, rfl, by decide⟩, ⟨_, rfl, by decide⟩⟩

/-- C5 as amended: the result codes of `put`, `signal` and `flush` are not looked at
(`processTrigger` is `void`): an iteration of the loop, and the whole service
function, behave the same whatever the transport operations report. An iteration
returns early only from a failed in-loop `flushTail()` (no GDRCopy and a failed
asynchronous copy), leaving `run` as it was; and whenever the service function
returns early it has not stored into `run`. -/
theorem transport_results_ignored (P : ProxyParams) (env : ProxyEnv)
    (hc : Nat → HostCall → mscclppResult_t) :
    (∀ s : ServiceState, serviceIter P { env with hostConn := hc } s = serviceIter P env s)
    ∧ (∀ (sched : List EnvAction) (fifo : mscclppProxyFifo) (run : mscclppProxyRunState_t)
        (ib : Bool),
        mscclppProxyService P { env with hostConn := hc } sched fifo run ib
          = mscclppProxyService P env sched fifo run ib)
    ∧ (∀ s s1 : ServiceState, serviceIter P env s = Outcome.ret s1 →
        P.MSCCLPP_USE_GDRCOPY = false ∧ env.cudaMemcpyAsync s1.fifo.fifoTailHost = false
          ∧ s1.trace.getLast? = some (Event.flushTail false) ∧ s1.run = s.run)
    ∧ (∀ (sched : List EnvAction) (fifo : mscclppProxyFifo) (run : mscclppProxyRunState_t)
        (ib : Bool) (s1 : ServiceState),
        mscclppProxyService P env sched fifo run ib = ServiceResult.returnedEarly s1 →
        ∀ v, Event.storeRun v ∉ s1.trace) :=
  ⟨serviceIter_hostConn P env hc, mscclppProxyService_hostConn P env hc,
   serviceIter_ret P env, mscclppProxyService_early_noStore P env⟩

/-- Without GDRCopy and with a failing asynchronous copy, the iteration that
processes a Sync trigger returns early after its `flushTail()`, `run` untouched. -/
theorem transport_results_ignored_witness :
    serviceIter (sampleParams 4 4 false) { okEnv with cudaMemcpyAsync := fun _ => false }
        (freshState
          (mscclppProxyFifo.mk [sampleTrigger 5 0 1 2 3, zeroTrigger, zeroTrigger, zeroTrigger]
            0 0 [])
          mscclppProxyRunState_t.MSCCLPP_PROXY_RUN_STATE_RUNNING false)
      = Outcome.ret
          { fifo := mscclppProxyFifo.mk [⟨0, (sampleTrigger 5 0 1 2 3).value1⟩, zeroTrigger,
              zeroTrigger, zeroTrigger] 1 0 []
            run := mscclppProxyRunState_t.MSCCLPP_PROXY_RUN_STATE_RUNNING
            ibContext := false
            runCnt := 99
            flushCnt := 1
            trace := [Event.poll 0, Event.processTrigger 0 (sampleTrigger 5 0 1 2 3),
              Event.transport 0 (HostCall.put 2 1 3), Event.transport 0 HostCall.flush,
              Event.pop, Event.flushTail false] }
    ∧ (sampleParams 4 4 false).MSCCLPP_USE_GDRCOPY = false
    ∧ mscclppProxyRunState_t.MSCCLPP_PROXY_RUN_STATE_RUNNING
        = mscclppProxyRunState_t.MSCCLPP_PROXY_RUN_STATE_RUNNING :=
  have h := (transport_results_ignored (sampleParams 4 4 false)
      { okEnv with cudaMemcpyAsync := fun _ => false } (fun _ _ => mscclppResult_t.mscclppSuccess)).2.2.1
    (freshState
      (mscclppProxyFifo.mk [sampleTrigger 5 0 1 2 3, zeroTrigger, zeroTrigger, zeroTrigger] 0 0 [])
      mscclppProxyRunState_t.MSCCLPP_PROXY_RUN_STATE_RUNNING false)
    { fifo := mscclppProxyFifo.mk [⟨0, (sampleTrigger 5 0 1 2 3).value1⟩, zeroTrigger,
        zeroTrigger, zeroTrigger] 1 0 []
      run := mscclppProxyRunState_t.MSCCLPP_PROXY_RUN_STATE_RUNNING
      ibContext := false
      runCnt := 99
      flushCnt := 1
      trace := [Event.poll 0, Event.processTrigger 0 (sampleTrigger 5 0 1 2 3),
        Event.transport 0 (HostCall.put 2 1 3), Event.transport 0 HostCall.flush,
        Event.pop, Event.flushTail false] }
    (by decide)
  ⟨by decide, h.1, h.2.2.2⟩

/-- C6 (the claim fails on the code): on a fresh loop (`runCnt = 100`) over an empty
ring with `run = Exiting` throughout, 100 iterations poll without ever reading `run`
and the loop is still spinning; it reads `run` and breaks in its iteration 101. With
`run = Running`, the reads of `run` come in the iterations 101 and 202: one read
every 101 polls, not every `MSCCLPP_PROXY_RUN_STATE_CHECK_PERIOD = 100`. This holds
for all parameters, environments and ring depths. -/
theorem run_state_check_period (P : ProxyParams) (env : ProxyEnv) (size : Nat) (ib : Bool) :
    serviceLoop P env (List.replicate 100 EnvAction.idle)
        (freshState (emptyFifo size) mscclppProxyRunState_t.MSCCLPP_PROXY_RUN_STATE_EXITING ib)
      = Outcome.next
          { freshState (emptyFifo size) mscclppProxyRunState_t.MSCCLPP_PROXY_RUN_STATE_EXITING ib
            with runCnt := 0, trace := List.replicate 100 (Event.poll 0) }
    ∧ serviceLoop P env (List.replicate 101 EnvAction.idle)
        (freshState (emptyFifo size) mscclppProxyRunState_t.MSCCLPP_PROXY_RUN_STATE_EXITING ib)
      = Outcome.brk
          { freshState (emptyFifo size) mscclppProxyRunState_t.MSCCLPP_PROXY_RUN_STATE_EXITING ib
            with
            runCnt := 100
            trace := List.replicate 100 (Event.poll 0)
              ++ [Event.readRun mscclppProxyRunState_t.MSCCLPP_PROXY_RUN_STATE_EXITING] }
    ∧ loopTrace P env (List.replicate 202 EnvAction.idle)
        (emptyFifo size) mscclppProxyRunState_t.MSCCLPP_PROXY_RUN_STATE_RUNNING ib
      = List.replicate 100 (Event.poll 0)
          ++ Event.readRun mscclppProxyRunState_t.MSCCLPP_PROXY_RUN_STATE_RUNNING
            :: List.replicate 101 (Event.poll 0)
          ++ [Event.readRun mscclppProxyRunState_t.MSCCLPP_PROXY_RUN_STATE_RUNNING,
              Event.poll 0] := by
  have hz : ∀ r, (polledTrigger P (freshState (emptyFifo size) r ib)).value0 = 0 := by
    intro r; rw [polledTrigger_emptyFifo]; rfl
  have hs : ∀ r, polledSlot P (freshState (emptyFifo size) r ib) = 0 :=
    fun r => polledSlot_emptyFifo P size r ib
  refine ⟨?_, ?_, ?_⟩
  · rw [spin P env 100 _ (hz _) (by simp [freshState, MSCCLPP_PROXY_RUN_STATE_CHECK_PERIOD])]
    simp only [spun, hs]
    simp [freshState, MSCCLPP_PROXY_RUN_STATE_CHECK_PERIOD]
  · have h := spin_then_break P env 100
      (freshState (emptyFifo size) mscclppProxyRunState_t.MSCCLPP_PROXY_RUN_STATE_EXITING ib) []
      (hz _) (by simp [freshState, MSCCLPP_PROXY_RUN_STATE_CHECK_PERIOD]) (by simp [freshState])
    have hl : List.replicate 101 EnvAction.idle
        = List.replicate 100 EnvAction.idle ++ [EnvAction.idle] := List.replicate_succ' 100 _
    rw [hl, h, hs]
    simp [freshState, MSCCLPP_PROXY_RUN_STATE_CHECK_PERIOD]
  · have hl : List.replicate 202 EnvAction.idle
        = (List.replicate 100 EnvAction.idle ++ [EnvAction.idle])
          ++ (List.replicate 100 EnvAction.idle ++ [EnvAction.idle]) := by
      rw [← List.replicate_succ', ← List.replicate_add]
    unfold loopTrace
    rw [hl, serviceLoop_append,
      spin_period P env
        (freshState (emptyFifo size) mscclppProxyRunState_t.MSCCLPP_PROXY_RUN_STATE_RUNNING ib)
        (hz _) rfl rfl]
    simp only []
    rw [spin_period P env
      { freshState (emptyFifo size) mscclppProxyRunState_t.MSCCLPP_PROXY_RUN_STATE_RUNNING ib with
        trace := (freshState (emptyFifo size)
            mscclppProxyRunState_t.MSCCLPP_PROXY_RUN_STATE_RUNNING ib).trace
          ++ List.replicate 100 (Event.poll (polledSlot P (freshState (emptyFifo size)
            mscclppProxyRunState_t.MSCCLPP_PROXY_RUN_STATE_RUNNING ib)))
          ++ [Event.readRun (freshState (emptyFifo size)
                mscclppProxyRunState_t.MSCCLPP_PROXY_RUN_STATE_RUNNING ib).run,
              Event.poll (polledSlot P (freshState (emptyFifo size)
                mscclppProxyRunState_t.MSCCLPP_PROXY_RUN_STATE_RUNNING ib))] }
      (hz mscclppProxyRunState_t.MSCCLPP_PROXY_RUN_STATE_RUNNING) rfl rfl]
    have h101 : List.replicate 101 (Event.poll 0)
        = Event.poll 0 :: List.replicate 100 (Event.poll 0) := rfl
    simp only [Outcome.state, h101, freshState, polledSlot_mk_emptyFifo, List.nil_append,
      List.append_assoc, List.cons_append, List.singleton_append]

/-- C7, the claim as stated fails: with the flush period 4 and five triggers of which
the 1st, the 3rd and the 5th have the Sync bit, `flushTail()` follows the dispatches
1, 3, 4 and 5. The Sync triggers 1 and 3 are two dispatches apart, and so are 3 and
5; one `flushTail()` is called after the 1st dispatch and up to the 3rd, two after
the 3rd and up to the 5th, where `⌊2 / 4⌋ + 1 = 1`: the count is not a function of
the distance. -/
theorem flush_count_counterexample :
    (dispatched syncRun).map (fun d => (sampleParams 8 4 true).type d.2) = [5, 1, 5, 1, 5]
    ∧ flushPerDispatch syncRun = [1, 0, 1, 1, 1]
    ∧ (((flushPerDispatch syncRun).drop 1).take (3 - 1)).sum = 1
    ∧ (((flushPerDispatch syncRun).drop 3).take (5 - 3)).sum = 2
    ∧ (3 - 1) / 4 + 1 = 1
    ∧ (5 - 3) / 4 + 1 = 1 := by
  refine ⟨by decide, by decide, by decide, by decide, by decide, by decide⟩

/-- C7 as amended: for every flush period `k ≥ 1` and every run of a freshly started
loop (fewer than `2 ^ 64` dispatches), if the `b`-th processed trigger has the Sync
bit and none of the triggers processed after the `a`-th and before the `b`-th has it
(as for two consecutive Sync triggers `a < b`), then the number of in-loop
`flushTail()` calls after the dispatch `a + 1` up to the dispatch `b`, the one of `b`
included, is `⌊(b - 1) / k⌋ - ⌊a / k⌋ + 1`: it depends on where the two triggers
are, not only on how far apart. -/
theorem flush_count_between (P : ProxyParams) (env : ProxyEnv) (sched : List EnvAction)
    (fifo : mscclppProxyFifo) (run : mscclppProxyRunState_t) (ib : Bool) (a b : Nat)
    (_hk : 1 ≤ P.MSCCLPP_PROXY_FIFO_FLUSH_COUNTER)
    (hlt : (dispatched (loopTrace P env sched fifo run ib)).length < U64)
    (hab : a < b) (hb : b ≤ (dispatched (loopTrace P env sched fifo run ib)).length)
    (hsync : P.type ((dispatched (loopTrace P env sched fifo run ib)).getD (b - 1)
        (0, zeroTrigger)).2 &&& P.mscclppSync ≠ 0)
    (hnone : ∀ i, a < i → i < b →
      P.type ((dispatched (loopTrace P env sched fifo run ib)).getD (i - 1)
        (0, zeroTrigger)).2 &&& P.mscclppSync = 0) :
    (((flushPerDispatch (loopTrace P env sched fifo run ib)).drop a).take (b - a)).sum
      = (b - 1) / P.MSCCLPP_PROXY_FIFO_FLUSH_COUNTER - a / P.MSCCLPP_PROXY_FIFO_FLUSH_COUNTER
        + 1 := by
  have hinv := cadenceInv_serviceLoop P env sched _ (cadenceInv_fresh P fifo run ib)
  have hfe : flushPerDispatch (loopTrace P env sched fifo run ib)
      = flushExpected P 0 (dispatched (loopTrace P env sched fifo run ib)) := hinv.2
  rw [hfe]
  have hba : b - a = (b - a - 1) + 1 := by omega
  have hidx : a + (b - a - 1) = b - 1 := by omega
  have hwin := flushExpected_window P _ hlt a (b - a - 1) (by omega)
    (fun i hi1 hi2 => by
      have := hnone (i + 1) (by omega) (by omega)
      simpa using this)
  rw [hba, sum_take_drop_succ _ a (b - a - 1) (by rw [flushExpected_length]; omega), hwin, hidx,
    flushExpected_getD P _ 0 (b - 1) (by omega)]
  have hd : flushDue P ((0 + (b - 1) + 1) % U64)
      ((dispatched (loopTrace P env sched fifo run ib)).getD (b - 1) (0, zeroTrigger)).2 :=
    Or.inr hsync
  rw [if_pos hd]

/-- The count on the run `syncRun`: after the 3rd and up to the 5th dispatch there are
`(5 - 1) / 4 - 3 / 4 + 1 = 2` calls of `flushTail()`. -/
theorem flush_count_between_witness :
    (((flushPerDispatch syncRun).drop 3).take (5 - 3)).sum
      = (5 - 1) / (sampleParams 8 4 true).MSCCLPP_PROXY_FIFO_FLUSH_COUNTER
        - 3 / (sampleParams 8 4 true).MSCCLPP_PROXY_FIFO_FLUSH_COUNTER + 1 :=
  flush_count_between (sampleParams 8 4 true) okEnv
    (EnvAction.mk (producerWrites 8 0
        [sampleTrigger 5 0 0 0 8, sampleTrigger 1 0 0 0 8, sampleTrigger 5 0 0 0 8,
         sampleTrigger 1 0 0 0 8, sampleTrigger 5 0 0 0 8]) none 0
      :: List.replicate 4 EnvAction.idle)
    (emptyFifo 8) mscclppProxyRunState_t.MSCCLPP_PROXY_RUN_STATE_RUNNING false 3 5
    (by decide) (by decide) (by decide) (by decide) (by decide)
    (fun i h1 h2 => by
      have h4 : i = 4 := by omega
      subst h4
      decide)

/-- C8: for every state in which the low 64 bits of the slot at
`fifoTailHost % MSCCLPP_PROXY_FIFO_SIZE` are zero, one iteration of the loop treats
the slot as empty: no transport operation, no `pop`, no `flushTail` (it only reads
`run` and polls), and the host tail, the device tail and every slot are unchanged.
A slot whose type field is zero never leads to a transport operation, whatever its
other bits; and where the layout is the one of the spec (a zero type field means a
zero low word), such a slot is treated as empty. -/
theorem empty_slot_iteration (P : ProxyParams) (env : ProxyEnv) (s : ServiceState) :
    ((polledTrigger P s).value0 = 0 → TreatedAsEmpty P env s)
    ∧ (P.type (polledTrigger P s) = 0 →
        transportCalls (serviceIter P env s).state.trace = transportCalls s.trace)
    ∧ ((∀ t, P.type t = 0 → t.value0 = 0) → P.type (polledTrigger P s) = 0 →
        TreatedAsEmpty P env s) :=
  ⟨serviceIter_treats_empty P env s, serviceIter_type_zero P env s,
   fun hl ht => serviceIter_treats_empty P env s (hl _ ht)⟩

/-- A fresh loop on an empty ring of four slots treats slot 0 as empty. -/
theorem empty_slot_iteration_witness :
    (polledTrigger (sampleParams 4 4 true)
        (freshState (emptyFifo 4) mscclppProxyRunState_t.MSCCLPP_PROXY_RUN_STATE_RUNNING
          false)).value0 = 0
    ∧ (∀ t, (sampleParams 4 4 true).type t = 0 → t.value0 = 0)
    ∧ TreatedAsEmpty (sampleParams 4 4 true) okEnv
        (freshState (emptyFifo 4) mscclppProxyRunState_t.MSCCLPP_PROXY_RUN_STATE_RUNNING false) :=
  ⟨by decide, fun _ h => h,
   (empty_slot_iteration (sampleParams 4 4 true) okEnv
      (freshState (emptyFifo 4) mscclppProxyRunState_t.MSCCLPP_PROXY_RUN_STATE_RUNNING
        false)).2.2 (fun _ h => h) (by decide)⟩

/-- C9: for every FIFO state (a ring of `MSCCLPP_PROXY_FIFO_SIZE > 0` slots), `poll`
returns the full content of the slot at `fifoTailHost % MSCCLPP_PROXY_FIFO_SIZE` and
leaves the FIFO as it was; a following `pop` leaves the low 64 bits of that slot zero,
increments `fifoTailHost` by exactly one (as a `uint64_t`), and changes neither the
other 64 bits of the slot, nor any other slot, nor the number of slots, nor the
device tail, nor the copies pending on the stream. -/
theorem poll_pop_frame (P : ProxyParams) (f : mscclppProxyFifo)
    (hN : 0 < P.MSCCLPP_PROXY_FIFO_SIZE)
    (hlen : f.triggerFifo.length = P.MSCCLPP_PROXY_FIFO_SIZE) :
    (f.poll P).1 = mscclppResult_t.mscclppSuccess
    ∧ (f.poll P).2.1
        = f.triggerFifo.getD (f.fifoTailHost % P.MSCCLPP_PROXY_FIFO_SIZE) zeroTrigger
    ∧ (f.poll P).2.2 = f
    ∧ (((f.poll P).2.2.pop P).2.triggerFifo.getD
          (f.fifoTailHost % P.MSCCLPP_PROXY_FIFO_SIZE) zeroTrigger).value0 = 0
    ∧ (((f.poll P).2.2.pop P).2.triggerFifo.getD
          (f.fifoTailHost % P.MSCCLPP_PROXY_FIFO_SIZE) zeroTrigger).value1
        = (f.triggerFifo.getD (f.fifoTailHost % P.MSCCLPP_PROXY_FIFO_SIZE) zeroTrigger).value1
    ∧ ((f.poll P).2.2.pop P).2.fifoTailHost = (f.fifoTailHost + 1) % U64
    ∧ (f.fifoTailHost + 1 < U64 →
        ((f.poll P).2.2.pop P).2.fifoTailHost = f.fifoTailHost + 1)
    ∧ (∀ j, j ≠ f.fifoTailHost % P.MSCCLPP_PROXY_FIFO_SIZE →
        ((f.poll P).2.2.pop P).2.triggerFifo.getD j zeroTrigger
          = f.triggerFifo.getD j zeroTrigger)
    ∧ ((f.poll P).2.2.pop P).2.triggerFifo.length = f.triggerFifo.length
    ∧ ((f.poll P).2.2.pop P).2.fifoTailDev = f.fifoTailDev
    ∧ ((f.poll P).2.2.pop P).2.stream = f.stream := by
  have hlt : f.fifoTailHost % P.MSCCLPP_PROXY_FIFO_SIZE < f.triggerFifo.length := by
    rw [hlen]; exact Nat.mod_lt _ hN
  refine ⟨rfl, rfl, rfl, ?_, ?_, rfl, ?_, ?_, ?_, rfl, rfl⟩
  · show ((f.triggerFifo.set (f.fifoTailHost % P.MSCCLPP_PROXY_FIFO_SIZE) _).getD _
      zeroTrigger).value0 = 0
    rw [getD_set_eq _ _ _ _ hlt]
  · show ((f.triggerFifo.set (f.fifoTailHost % P.MSCCLPP_PROXY_FIFO_SIZE) _).getD _
      zeroTrigger).value1 = _
    rw [getD_set_eq _ _ _ _ hlt]
    rfl
  · intro h
    show (f.fifoTailHost + 1) % U64 = _
    exact Nat.mod_eq_of_lt h
  · intro j hj
    show (f.triggerFifo.set (f.fifoTailHost % P.MSCCLPP_PROXY_FIFO_SIZE) _).getD j
      zeroTrigger = _
    rw [getD_set_ne _ _ _ _ _ (Ne.symm hj)]
  · show (f.triggerFifo.set _ _).length = _
    rw [List.length_set]

/-- On a ring of four slots with the tail at 5, `poll` reads slot 1 and `pop` clears
its low word and moves the tail to 6. -/
theorem poll_pop_frame_witness :
    (0 < 4 ∧ [zeroTrigger, ⟨1, 77⟩, ⟨2, 5⟩, zeroTrigger].length = 4)
    ∧ ((mscclppProxyFifo.mk [zeroTrigger, ⟨1, 77⟩, ⟨2, 5⟩, zeroTrigger] 5 3 []).poll
          (sampleParams 4 4 true)).2.1 = ⟨1, 77⟩
    ∧ (((mscclppProxyFifo.mk [zeroTrigger, ⟨1, 77⟩, ⟨2, 5⟩, zeroTrigger] 5 3 []).poll
          (sampleParams 4 4 true)).2.2.pop (sampleParams 4 4 true)).2
        = mscclppProxyFifo.mk [zeroTrigger, ⟨0, 77⟩, ⟨2, 5⟩, zeroTrigger] 6 3 [] :=
  have h := poll_pop_frame (sampleParams 4 4 true)
    (mscclppProxyFifo.mk [zeroTrigger, ⟨1, 77⟩, ⟨2, 5⟩, zeroTrigger] 5 3 [])
    (by decide) (by decide)
  ⟨⟨by decide, by decide⟩, h.2.1, by decide⟩

/-- C10 (the claim fails on the code): the `elapsed` of `sleep_clocks` for the 64-bit
readings `start` and `now` is `now - start` when `now > start`, and else
`2 ^ 64 - 1 - (start - now)`, one less (modulo `2 ^ 64`) than the wrapped
difference. With `now = start = 5` it is `2 ^ 64 - 1` although no clock has elapsed,
so `sleep_clocks(1000)` returns at that reading; with `start = 10`, `now = 3` it is
`2 ^ 64 - 8` while the wrapped difference is `2 ^ 64 - 7`. -/
theorem sleep_clocks_elapsed_miscount :
    (∀ start now : Nat,
      elapsed (start % U64) (now % U64)
        = if now % U64 > start % U64 then now % U64 - start % U64
          else U64 - 1 - (start % U64 - now % U64))
    ∧ elapsed 5 5 = 18446744073709551615
    ∧ ((5 : Int) - 5) % 18446744073709551616 = 0
    ∧ sleep_clocks 1000 0 [5, 5] = some (some 5)
    ∧ elapsed 10 3 = 18446744073709551608
    ∧ ((3 : Int) - 10) % 18446744073709551616 = 18446744073709551609 := by
  refine ⟨?_, by decide, by decide, by decide, by decide, by decide⟩
  intro start now
  have h1 : start % U64 < U64 := Nat.mod_lt _ (by unfold U64; omega)
  have h2 : now % U64 < U64 := Nat.mod_lt _ (by unfold U64; omega)
  generalize start % U64 = a at h1 ⊢
  generalize now % U64 = b at h2 ⊢
  unfold elapsed
  unfold U64 at *
  split
  · omega
  · omega

end Mscclpp
